import Mathlib

/-!
# Verification of the contact-keeper-manager CSV import / validation subsystem

Shallow embedding of the TypeScript sources of `contact-keeper-manager`:
the CSV import service (`services/csvService.ts`, `importContacts`), the
date / integer validators (`utils/validation.js`), the input sanitizer
(`utils/sanitizer.ts`), the contact validator (`utils/contactValidator.ts`)
and the contacts controller (`controllers/contacts.ts`).

JavaScript strings are Lean `String`s; JavaScript numbers that can be
non-integral (JSON request bodies) are `ℚ`; database integer columns are
`Int`; `undefined` is `Option.none`.  String helpers (`trim`, `split`,
`Number.parseInt`) are re-implemented structurally below so that every
definition evaluates inside the kernel.
-/

/-- Whitespace as trimmed by JavaScript's `String.prototype.trim` (ASCII part). -/
def isWsChar (c : Char) : Bool :=
  c == ' ' || c == '\t' || c == '\n' || c == '\r'

/-- Model of JavaScript `s.trim()`. -/
def jsTrim (s : String) : String :=
  ⟨((s.data.dropWhile isWsChar).reverse.dropWhile isWsChar).reverse⟩

/-- ASCII decimal digit test. -/
def isDigitB (c : Char) : Bool :=
  decide (48 ≤ c.toNat ∧ c.toNat ≤ 57)

/-- Numeric value of an ASCII digit. -/
def digitVal (c : Char) : Nat :=
  c.toNat - 48

/-- Value of a run of decimal digits (how `Number`/`parseInt` read an all-digit string). -/
def natOfDigits (l : List Char) : Nat :=
  l.foldl (fun n c => 10 * n + digitVal c) 0

/-- Model of JavaScript `Number.parseInt(s, 10)`: skip leading whitespace, optional
sign, then the longest leading digit run; `none` models `NaN` (no digits at all). -/
def parseIntJS (s : String) : Option Int :=
  match s.data.dropWhile isWsChar with
  | '-' :: rest =>
    let ds := rest.takeWhile isDigitB
    if ds.isEmpty then none else some (-(natOfDigits ds : Int))
  | '+' :: rest =>
    let ds := rest.takeWhile isDigitB
    if ds.isEmpty then none else some ((natOfDigits ds : Int))
  | l =>
    let ds := l.takeWhile isDigitB
    if ds.isEmpty then none else some ((natOfDigits ds : Int))

/-- Splitting a string at `/` (model of `dateStr.split('/')`). -/
def splitSlashAux : List Char → List Char → List String
  | [], acc => [⟨acc.reverse⟩]
  | '/' :: rest, acc => (⟨acc.reverse⟩ : String) :: splitSlashAux rest []
  | c :: rest, acc => splitSlashAux rest (c :: acc)

/-- Model of `s.split('/')`. -/
def splitSlash (s : String) : List String :=
  splitSlashAux s.data []

/-!
## `utils/validation.js` — `isValidDateFormat`

The source first tests the regex
`^(0?[1-9]|1[0-2])\/(0?[1-9]|[12]\d|3[01])\/\d{4}$`, then builds
`new Date(year, month - 1, day)` and compares the getters with the parsed
components.  The regex is embedded as matchers on the three `/`-separated
components (the components are digit-only, so splitting reconstructs them),
and the `Date` round trip as `jsDateYMD` below.
-/

/-- The month component pattern `0?[1-9]|1[0-2]` (`49 ≤ toNat ≤ 57` is `[1-9]`,
`48 ≤ toNat ≤ 50` is `[0-2]`). -/
def matchMonthR (t : String) : Bool :=
  match t.data with
  | [c] => decide (49 ≤ c.toNat ∧ c.toNat ≤ 57)
  | [c0, c] =>
    (c0 == '0' && decide (49 ≤ c.toNat ∧ c.toNat ≤ 57)) ||
    (c0 == '1' && decide (48 ≤ c.toNat ∧ c.toNat ≤ 50))
  | _ => false

/-- The day component pattern `0?[1-9]|[12]\d|3[01]`. -/
def matchDayR (t : String) : Bool :=
  match t.data with
  | [c] => decide (49 ≤ c.toNat ∧ c.toNat ≤ 57)
  | [c0, c] =>
    (c0 == '0' && decide (49 ≤ c.toNat ∧ c.toNat ≤ 57)) ||
    ((c0 == '1' || c0 == '2') && isDigitB c) ||
    (c0 == '3' && decide (48 ≤ c.toNat ∧ c.toNat ≤ 49))
  | _ => false

/-- The year component pattern `\d{4}`. -/
def matchYearR (t : String) : Bool :=
  match t.data with
  | [a, b, c, d] => isDigitB a && isDigitB b && isDigitB c && isDigitB d
  | _ => false

/-- The whole date regex `^(0?[1-9]|1[0-2])\/(0?[1-9]|[12]\d|3[01])\/\d{4}$`
(`VALIDATION.DATE_FORMAT_REGEX` in `constants.ts`). -/
def dateRegexTest (s : String) : Bool :=
  match splitSlash s with
  | [ms, ds, ys] => matchMonthR ms && matchDayR ds && matchYearR ys
  | _ => false

/-- Gregorian leap-year rule, as used by the JavaScript `Date` object. -/
def isLeapYear (y : Nat) : Bool :=
  (y % 4 == 0 && y % 100 != 0) || (y % 400 == 0)

/-- Days in month `m` (1–12) of year `y`. -/
def daysInMonth (y m : Nat) : Nat :=
  if m = 2 then (if isLeapYear y then 29 else 28)
  else if m = 4 ∨ m = 6 ∨ m = 9 ∨ m = 11 then 30
  else 31

/-- Year as adjusted by the JavaScript `Date(year, …)` constructor: a year in
0–99 is interpreted as 1900 + year. -/
def jsFullYear (y : Nat) : Nat :=
  if y ≤ 99 then 1900 + y else y

/-- Model of `new Date(y, m - 1, d)` followed by
`(getFullYear(), getMonth() + 1, getDate())`, on the domain the regex
guarantees (`1 ≤ m ≤ 12`, `1 ≤ d ≤ 31`): a day overflowing the month
rolls into the following month. -/
def jsDateYMD (y m d : Nat) : Nat × Nat × Nat :=
  let fy := jsFullYear y
  if d ≤ daysInMonth fy m then (fy, m, d)
  else if m = 12 then (fy + 1, 1, d - daysInMonth fy m)
  else (fy, m + 1, d - daysInMonth fy m)

/-- `utils/validation.js` `isValidDateFormat`: regex test, then the `Date`
round-trip comparison `getFullYear() === year && getMonth() === month - 1 &&
getDate() === day`. -/
def isValidDateFormat (s : String) : Bool :=
  if s = "" then false
  else
    match splitSlash s with
    | [ms, ds, ys] =>
      if matchMonthR ms && matchDayR ds && matchYearR ys then
        let m := natOfDigits ms.data
        let d := natOfDigits ds.data
        let y := natOfDigits ys.data
        let r := jsDateYMD y m d
        r.1 == y && r.2.1 == m && r.2.2 == d
      else false
    | _ => false

/-- The date acceptance criterion in the words of the specification: the string
matches the `MM/DD/YYYY`-family regex and denotes a real calendar date (the
day-of-month bound check for the given month and year). -/
def specDateAccept (s : String) : Bool :=
  if s = "" then false
  else
    match splitSlash s with
    | [ms, ds, ys] =>
      if matchMonthR ms && matchDayR ds && matchYearR ys then
        natOfDigits ds.data ≤ daysInMonth (natOfDigits ys.data) (natOfDigits ms.data)
      else false
    | _ => false

/-- The amended acceptance criterion: additionally the four-digit year must be
at least 0100 (the `Date` constructor remaps years 0–99 to 1900-based years,
so such strings always fail the round trip). -/
def specDateAcceptAmended (s : String) : Bool :=
  if s = "" then false
  else
    match splitSlash s with
    | [ms, ds, ys] =>
      if matchMonthR ms && matchDayR ds && matchYearR ys then
        decide (100 ≤ natOfDigits ys.data) &&
        decide (natOfDigits ds.data ≤
          daysInMonth (natOfDigits ys.data) (natOfDigits ms.data))
      else false
    | _ => false

lemma charToNat0 : ('0' : Char).toNat = 48 := by decide

lemma charToNat1 : ('1' : Char).toNat = 49 := by decide

lemma charToNat2 : ('2' : Char).toNat = 50 := by decide

lemma charToNat3 : ('3' : Char).toNat = 51 := by decide

lemma matchMonthR_bounds {t : String} (h : matchMonthR t = true) :
    1 ≤ natOfDigits t.data ∧ natOfDigits t.data ≤ 12 := by
  rcases ht : t.data with _ | ⟨c0, _ | ⟨c1, _ | ⟨c2, l⟩⟩⟩ <;>
    simp [matchMonthR, ht] at h
  · simp [natOfDigits, digitVal, List.foldl]
    omega
  · rcases h with ⟨he, hc⟩ | ⟨he, hc⟩ <;> subst he <;>
      simp [natOfDigits, digitVal, List.foldl, charToNat0, charToNat1] <;>
      omega

lemma matchDayR_bounds {t : String} (h : matchDayR t = true) :
    1 ≤ natOfDigits t.data ∧ natOfDigits t.data ≤ 31 := by
  rcases ht : t.data with _ | ⟨c0, _ | ⟨c1, _ | ⟨c2, l⟩⟩⟩ <;>
    simp [matchDayR, isDigitB, ht] at h
  · simp [natOfDigits, digitVal, List.foldl]
    omega
  · rcases h with (⟨he, hc⟩ | ⟨he | he, hc⟩) | ⟨he, hc⟩ <;> subst he <;>
      simp [natOfDigits, digitVal, List.foldl, charToNat0, charToNat1,
        charToNat2, charToNat3] <;>
      omega

/-- The `Date` round trip succeeds exactly when the year survives the two-digit
remapping and the day fits the month. -/
lemma jsDateYMD_roundtrip {y m d : Nat} :
    (((jsDateYMD y m d).1 == y && (jsDateYMD y m d).2.1 == m &&
      (jsDateYMD y m d).2.2 == d) = true) ↔
      (100 ≤ y ∧ d ≤ daysInMonth y m) := by
  unfold jsDateYMD jsFullYear
  by_cases hy : y ≤ 99 <;>
    simp only [hy, if_true, if_false] <;>
    split_ifs with h1 h2 <;>
    simp <;>
    omega

/-- **C6** (amended).  The date validator accepts a string iff it matches the
`MM/DD/YYYY`-family regex (leading zeros optional), denotes a real calendar
date with a day-of-month bound check, and the four-digit year is at least
0100; in particular the five examples of the specification hold. -/
theorem c6_isValidDateFormat_calendar :
    (∀ s : String, isValidDateFormat s = specDateAcceptAmended s) ∧
    isValidDateFormat "2/29/2024" = true ∧
    isValidDateFormat "2/29/2023" = false ∧
    isValidDateFormat "13/1/2024" = false ∧
    isValidDateFormat "1/1/2024" = true ∧
    isValidDateFormat "01/01/2024" = true := by
  refine ⟨?_, by decide, by decide, by decide, by decide, by decide⟩
  intro s
  unfold isValidDateFormat specDateAcceptAmended
  by_cases hs : s = ""
  · simp [hs]
  · simp only [hs, if_false]
    rcases hsp : splitSlash s with _ | ⟨ms, _ | ⟨ds, _ | ⟨ys, _ | _⟩⟩⟩ <;> simp
    by_cases hm : (matchMonthR ms && matchDayR ds && matchYearR ys) = true
    · obtain ⟨⟨hmo, hda⟩, _⟩ := by simpa [Bool.and_eq_true] using hm
      simp only [hm, if_true, Bool.true_and]
      rw [Bool.eq_iff_iff, jsDateYMD_roundtrip]
      simp
    · simp only [Bool.not_eq_true] at hm
      simp [hm]

/-- **C6** counterexample to the claim as stated: `"01/01/0099"` matches the
regex and is a real calendar date (day within bounds), yet the validator
rejects it, because the JavaScript `Date` constructor remaps years 0–99. -/
theorem c6_counterexample_year99 :
    specDateAccept "01/01/0099" = true ∧ isValidDateFormat "01/01/0099" = false := by
  constructor
  · decide
  · decide

/-!
## `constants.ts` — CSV configuration and the sort-field allow-list
-/

/-- `CSV_CONFIG.MAX_RECORDS_PER_BATCH`. -/
def MAX_RECORDS_PER_BATCH : Nat := 1000

/-- `VALIDATION.ALLOWED_SORT_FIELDS`. -/
def ALLOWED_SORT_FIELDS : List String :=
  ["contact_id", "first_name", "last_name", "program", "email_address",
   "phone", "contact_created_date", "action", "law_firm_id", "law_firm_name"]

/-!
## `entities/Contact.ts` and `services/csvService.ts` — the import pipeline

A `Contact` is a row of the `contacts` table (`contact_id` is the
`@PrimaryColumn`, so it is unique in any reachable database state); a
`RawRecord` is one record yielded by the CSV parser, each expected column
either present (with the parser-trimmed cell text) or absent.
-/

structure Contact where
  contact_id : Int
  first_name : String
  last_name : String
  program : String
  email_address : String
  phone : String
  contact_created_date : String
  law_firm_id : Int
  law_firm_name : String
deriving DecidableEq

structure RawRecord where
  contact_id : Option String
  first_name : Option String
  last_name : Option String
  program : Option String
  email_address : Option String
  phone : Option String
  contact_created_date : Option String
  law_firm_id : Option String
  law_firm_name : Option String
deriving DecidableEq

/-- `record[cols.CONTACT_ID]?.trim() || ""`. -/
def rawContactId (r : RawRecord) : String :=
  jsTrim (r.contact_id.getD "")

/-- `record[cols.LAW_FIRM_ID]?.trim() || ""`. -/
def rawLawFirmId (r : RawRecord) : String :=
  jsTrim (r.law_firm_id.getD "")

/-- `!Number.isInteger(contactId) || contactId <= 0` for
`contactId = Number.parseInt(contactIdRaw, 10)` (`NaN` is not an integer). -/
def contactKeyInvalidB (r : RawRecord) : Bool :=
  match parseIntJS (rawContactId r) with
  | none => true
  | some v => decide (v ≤ 0)

/-- The same gate for `lawFirmId`. -/
def lawFirmKeyInvalidB (r : RawRecord) : Bool :=
  match parseIntJS (rawLawFirmId r) with
  | none => true
  | some v => decide (v ≤ 0)

/-- The object pushed onto `contacts` for a record that passes both gates
(absent columns become the entity's column defaults on save). -/
def stageRecord (r : RawRecord) : Contact where
  contact_id := (parseIntJS (rawContactId r)).getD 0
  first_name := r.first_name.getD ""
  last_name := r.last_name.getD ""
  program := r.program.getD ""
  email_address := r.email_address.getD ""
  phone := r.phone.getD ""
  contact_created_date := r.contact_created_date.getD ""
  law_firm_id := (parseIntJS (rawLawFirmId r)).getD 0
  law_firm_name := r.law_firm_name.getD ""

/-- The truncation message pushed when the batch cap is hit. -/
def batchLimitError : String :=
  "Batch size limit reached (" ++ toString MAX_RECORDS_PER_BATCH ++
    " records). Additional records were not processed."

/-- The `for await (const record of parser)` loop of `importContacts`:
accumulates staged contacts, the `skipped` counter and the `errors` list. -/
def stageLoop : List RawRecord → List Contact → Nat → List String →
    List Contact × Nat × List String
  | [], acc, sk, errs => (acc, sk, errs)
  | r :: rest, acc, sk, errs =>
    if MAX_RECORDS_PER_BATCH ≤ acc.length then
      (acc, sk, errs ++ [batchLimitError])
    else if contactKeyInvalidB r then
      stageLoop rest acc (sk + 1)
        (errs ++ ["Skipping record with invalid contact_id: " ++
          (if rawContactId r = "" then "<empty>" else rawContactId r)])
    else if lawFirmKeyInvalidB r then
      stageLoop rest acc (sk + 1)
        (errs ++ ["Skipping record with invalid law_firm_id: " ++
          (if rawLawFirmId r = "" then "<empty>" else rawLawFirmId r)])
    else
      stageLoop rest (acc ++ [stageRecord r]) sk errs

/-- The staging phase of one `importContacts` call. -/
def importStage (records : List RawRecord) : List Contact × Nat × List String :=
  stageLoop records [] 0 []

/-!
### The transaction (`dataSource.transaction(...)`)

Storage-engine failures during the two apply steps are injected through
`Faults`; a primary-key violation on the bulk insert (duplicate
`contact_id`s inside the inserted set, or one colliding with a stored row)
fails the insert deterministically.  A failing body makes the whole
transaction roll back: the committed state is unchanged and the error is
rethrown to the caller.
-/

structure Faults where
  insertFault : Bool
  updateFault : Bool
deriving DecidableEq

def noFaults : Faults := ⟨false, false⟩

inductive DbError where
  | insertFailure
  | updateFailure
deriving DecidableEq

/-- The existence probe: the single `find` fetching the stored `contact_id`s
among the candidate key list. -/
def existingIdsProbe (db : List Contact) (ids : List Int) : List Int :=
  (db.filter (fun c => ids.contains c.contact_id)).map (fun c => c.contact_id)

/-- The single pass separating the staged batch into
(`toUpdate`, `toInsert`); the source guard is
`contactData.contact_id && existingContactIds.has(contactData.contact_id)`. -/
def partitionContacts (staged : List Contact) (existingIds : List Int) :
    List Contact × List Contact :=
  staged.partition (fun c => !(c.contact_id == 0) && existingIds.contains c.contact_id)

/-- UNIQUE/`@PrimaryColumn` violation for a bulk `insert` of `rows` against a
state `db` that already satisfies the constraint. -/
def insertConflictB (db : List Contact) (rows : List Contact) : Bool :=
  !(decide (rows.map (fun c => c.contact_id)).Nodup) ||
    rows.any (fun r => db.any (fun c => c.contact_id == r.contact_id))

/-- `contactRepository.save(contactsToUpdate)`: each entity with an existing
primary key overwrites the stored row with that key. -/
def applyUpdates (db : List Contact) (us : List Contact) : List Contact :=
  us.foldl
    (fun d u => d.map (fun c => if c.contact_id == u.contact_id then u else c)) db

/-- `if (toInsert.length > 0) await contactRepository.insert(toInsert)`. -/
def insertStep (f : Faults) (db rows : List Contact) :
    Except DbError (List Contact × Nat) :=
  if 0 < rows.length then
    if f.insertFault || insertConflictB db rows then .error .insertFailure
    else .ok (db ++ rows, rows.length)
  else .ok (db, 0)

/-- `if (toUpdate.length > 0) await contactRepository.save(contactsToUpdate)`. -/
def updateStep (f : Faults) (db us : List Contact) :
    Except DbError (List Contact × Nat) :=
  if 0 < us.length then
    if f.updateFault then .error .updateFailure
    else .ok (applyUpdates db us, us.length)
  else .ok (db, 0)

/-- The body passed to `dataSource.transaction`: existence probe, partition,
bulk insert, bulk save — all against the same transactional state. -/
def importTxBody (f : Faults) (staged db : List Contact) :
    Except DbError (List Contact × Nat × Nat) :=
  let existingContactIds := existingIdsProbe db (staged.map (fun c => c.contact_id))
  let p := partitionContacts staged existingContactIds
  match insertStep f db p.2 with
  | .error e => .error e
  | .ok (db1, inserted) =>
    match updateStep f db1 p.1 with
    | .error e => .error e
    | .ok (db2, updated) => .ok (db2, inserted, updated)

structure CsvImportResult where
  totalRecords : Nat
  inserted : Nat
  updated : Nat
  skipped : Nat
  errors : List String
deriving DecidableEq

/-- `CsvService.importContacts`: staging loop, then the transaction.  The
returned pair is (database state visible after the call, result or rethrown
error); when the transaction body fails the state rolls back to `db`. -/
def importContacts (f : Faults) (records : List RawRecord) (db : List Contact) :
    List Contact × Except DbError CsvImportResult :=
  let st := importStage records
  match importTxBody f st.1 db with
  | .error e => (db, .error e)
  | .ok (db2, inserted, updated) =>
    (db2, .ok { totalRecords := st.1.length + st.2.1, inserted := inserted,
                updated := updated, skipped := st.2.1, errors := st.2.2 })

/-!
### General lemmas about the pipeline
-/

lemma length_filter_add (p : Contact → Bool) (l : List Contact) :
    (l.filter p).length + (l.filter (fun a => !(p a))).length = l.length := by
  induction l with
  | nil => simp
  | cons c cs ih =>
    by_cases hc : p c = true <;> simp [List.filter_cons, hc] <;> omega

lemma partitionContacts_lengths (staged : List Contact) (ids : List Int) :
    (partitionContacts staged ids).1.length +
      (partitionContacts staged ids).2.length = staged.length := by
  unfold partitionContacts
  rw [List.partition_eq_filter_filter]
  exact length_filter_add _ staged

lemma importTxBody_nil (f : Faults) (db : List Contact) :
    importTxBody f [] db = .ok (db, 0, 0) := by
  have hpr : existingIdsProbe db (([] : List Contact).map (fun c => c.contact_id)) = [] := by
    unfold existingIdsProbe
    have : db.filter (fun c => (([] : List Contact).map
        (fun c => c.contact_id)).contains c.contact_id) = [] := by
      induction db with
      | nil => rfl
      | cons c cs ih => simp [List.filter_cons, ih]
    rw [this]; rfl
  unfold importTxBody
  rw [hpr]
  simp [partitionContacts, insertStep, updateStep]

lemma insertStep_ok {f : Faults} {db rows db' : List Contact} {n : Nat}
    (h : insertStep f db rows = .ok (db', n)) : n = rows.length := by
  unfold insertStep at h
  split_ifs at h <;> simp_all

lemma updateStep_ok {f : Faults} {db us db' : List Contact} {n : Nat}
    (h : updateStep f db us = .ok (db', n)) : n = us.length := by
  unfold updateStep at h
  split_ifs at h <;> simp_all

lemma importTxBody_ok {f : Faults} {staged db db2 : List Contact} {ins upd : Nat}
    (h : importTxBody f staged db = .ok (db2, ins, upd)) :
    ins = (partitionContacts staged (existingIdsProbe db
      (staged.map (fun c => c.contact_id)))).2.length ∧
    upd = (partitionContacts staged (existingIdsProbe db
      (staged.map (fun c => c.contact_id)))).1.length := by
  simp only [importTxBody] at h
  cases hi : insertStep f db (partitionContacts staged (existingIdsProbe db
      (staged.map (fun c => c.contact_id)))).2 with
  | error e => rw [hi] at h; simp at h
  | ok v =>
    obtain ⟨v1, v2⟩ := v
    rw [hi] at h
    simp only [] at h
    cases hu : updateStep f v1 (partitionContacts staged (existingIdsProbe db
        (staged.map (fun c => c.contact_id)))).1 with
    | error e => rw [hu] at h; simp at h
    | ok w =>
      obtain ⟨w1, w2⟩ := w
      rw [hu] at h
      simp only [Except.ok.injEq, Prod.mk.injEq] at h
      obtain ⟨-, hins, hupd⟩ := h
      exact ⟨hins ▸ insertStep_ok hi, hupd ▸ updateStep_ok hu⟩

lemma stageRecord_pos {r : RawRecord} (hc : contactKeyInvalidB r = false)
    (hl : lawFirmKeyInvalidB r = false) :
    0 < (stageRecord r).contact_id ∧ 0 < (stageRecord r).law_firm_id := by
  unfold contactKeyInvalidB at hc
  unfold lawFirmKeyInvalidB at hl
  unfold stageRecord
  cases hp : parseIntJS (rawContactId r) with
  | none => rw [hp] at hc; simp at hc
  | some v =>
    cases hq : parseIntJS (rawLawFirmId r) with
    | none => rw [hq] at hl; simp at hl
    | some w =>
      rw [hp] at hc; rw [hq] at hl
      simp only [decide_eq_false_iff_not, not_le] at hc hl
      simp [hp, hq, hc, hl]

lemma stageLoop_mem {l : List RawRecord} {acc : List Contact} {sk : Nat}
    {errs : List String} {c : Contact}
    (hacc : ∀ x ∈ acc, 0 < x.contact_id ∧ 0 < x.law_firm_id)
    (hc : c ∈ (stageLoop l acc sk errs).1) :
    0 < c.contact_id ∧ 0 < c.law_firm_id := by
  induction l generalizing acc sk errs with
  | nil => exact hacc c (by simpa [stageLoop] using hc)
  | cons r rest ih =>
    rw [stageLoop] at hc
    by_cases h1 : MAX_RECORDS_PER_BATCH ≤ acc.length
    · rw [if_pos h1] at hc
      exact hacc c (by simpa using hc)
    · rw [if_neg h1] at hc
      by_cases h2 : contactKeyInvalidB r = true
      · rw [if_pos h2] at hc
        exact ih hacc hc
      · rw [if_neg h2] at hc
        by_cases h3 : lawFirmKeyInvalidB r = true
        · rw [if_pos h3] at hc
          exact ih hacc hc
        · rw [if_neg h3] at hc
          refine ih ?_ hc
          intro x hx
          rcases List.mem_append.mp hx with hx | hx
          · exact hacc x hx
          · have hxe : x = stageRecord r := by simpa using hx
            subst hxe
            exact stageRecord_pos (by simpa using h2) (by simpa using h3)

deriving instance DecidableEq for Except

/-- **C1**.  The existence probe, bulk insert and bulk update of one
`importContacts` call all run inside a single `dataSource.transaction`: if the
call ends in an error — in particular when an apply step fails after an
earlier step succeeded — the visible database state is exactly the state
before the call, so no row of either set is committed. -/
theorem c1_import_atomicity (f : Faults) (records : List RawRecord)
    (db : List Contact) (e : DbError)
    (h : (importContacts f records db).2 = .error e) :
    (importContacts f records db).1 = db := by
  simp only [importContacts] at h ⊢
  cases htx : importTxBody f (importStage records).1 db with
  | error e' => simp [htx]
  | ok v => rw [htx] at h; simp at h

/-- **C1** witness: a batch with one fresh key and one stored key, where the
update step fails after the insert step succeeded; the visible state is the
original single-row database — the inserted row is rolled back. -/
theorem c1_import_atomicity_witness :
    (importContacts ⟨false, true⟩
        [⟨some "8", some "N", none, none, none, none, none, some "3", none⟩,
         ⟨some "7", some "U", none, none, none, none, none, some "3", none⟩]
        [⟨7, "A", "B", "", "", "", "1/1/2024", 3, "F"⟩]).2 =
      .error .updateFailure ∧
    (importContacts ⟨false, true⟩
        [⟨some "8", some "N", none, none, none, none, none, some "3", none⟩,
         ⟨some "7", some "U", none, none, none, none, none, some "3", none⟩]
        [⟨7, "A", "B", "", "", "", "1/1/2024", 3, "F"⟩]).1 =
      [⟨7, "A", "B", "", "", "", "1/1/2024", 3, "F"⟩] :=
  ⟨by decide, c1_import_atomicity ⟨false, true⟩
    [⟨some "8", some "N", none, none, none, none, none, some "3", none⟩,
     ⟨some "7", some "U", none, none, none, none, none, some "3", none⟩]
    [⟨7, "A", "B", "", "", "", "1/1/2024", 3, "F"⟩] .updateFailure (by decide)⟩

/-- **C2**.  A parsed row whose `contact_id` field is empty or does not parse
to a positive integer is counted in `skipped`, is never staged (the batch
accumulator is unchanged), and appends exactly one message carrying the
literal trimmed raw value (or `<empty>` when blank); a one-row import of such
a record reaches storage untouched and reports `skipped = 1` with that single
message. -/
theorem c2_skip_invalid_contact_id (r : RawRecord) (rest : List RawRecord)
    (acc : List Contact) (sk : Nat) (errs : List String)
    (hlen : acc.length < MAX_RECORDS_PER_BATCH)
    (hbad : contactKeyInvalidB r = true) :
    (stageLoop (r :: rest) acc sk errs =
      stageLoop rest acc (sk + 1)
        (errs ++ ["Skipping record with invalid contact_id: " ++
          (if rawContactId r = "" then "<empty>" else rawContactId r)])) ∧
    ∀ (f : Faults) (db : List Contact),
      importContacts f [r] db =
        (db, .ok ⟨1, 0, 0, 1,
          ["Skipping record with invalid contact_id: " ++
            (if rawContactId r = "" then "<empty>" else rawContactId r)]⟩) := by
  have hstep : ∀ (rs : List RawRecord) (acc' : List Contact) (sk' : Nat)
      (errs' : List String),
      acc'.length < MAX_RECORDS_PER_BATCH →
      stageLoop (r :: rs) acc' sk' errs' =
        stageLoop rs acc' (sk' + 1)
          (errs' ++ ["Skipping record with invalid contact_id: " ++
            (if rawContactId r = "" then "<empty>" else rawContactId r)]) := by
    intro rs acc' sk' errs' hlen'
    rw [stageLoop, if_neg (by omega), if_pos hbad]
  refine ⟨hstep rest acc sk errs hlen, ?_⟩
  intro f db
  have hstage : importStage [r] = ([], 1,
      ["Skipping record with invalid contact_id: " ++
        (if rawContactId r = "" then "<empty>" else rawContactId r)]) := by
    unfold importStage
    rw [hstep [] [] 0 [] (by simp [MAX_RECORDS_PER_BATCH])]
    simp [stageLoop]
  simp [importContacts, hstage, importTxBody_nil]

/-- **C2** witness: a record whose `contact_id` column is absent (so the raw
value is blank and the message carries `<empty>`). -/
theorem c2_skip_invalid_contact_id_witness :
    stageLoop [⟨none, some "A", none, none, none, none, none, some "3", none⟩] [] 0 [] =
      stageLoop [] [] 1 ["Skipping record with invalid contact_id: <empty>"] ∧
    importContacts noFaults
        [⟨none, some "A", none, none, none, none, none, some "3", none⟩] [] =
      ([], .ok ⟨1, 0, 0, 1, ["Skipping record with invalid contact_id: <empty>"]⟩) := by
  have h := c2_skip_invalid_contact_id
    ⟨none, some "A", none, none, none, none, none, some "3", none⟩ [] [] 0 []
    (by decide) (by decide)
  exact ⟨by simpa using h.1, by simpa using h.2 noFaults []⟩

/-- The insert-set of one import call (keys absent from storage), as
partitioned inside the transaction. -/
def insertSetOf (records : List RawRecord) (db : List Contact) : List Contact :=
  (partitionContacts (importStage records).1 (existingIdsProbe db
    ((importStage records).1.map (fun c => c.contact_id)))).2

/-- The update-set of one import call (keys found by the existence probe). -/
def updateSetOf (records : List RawRecord) (db : List Contact) : List Contact :=
  (partitionContacts (importStage records).1 (existingIdsProbe db
    ((importStage records).1.map (fun c => c.contact_id)))).1

/-- **C5**.  Every completed import call reports
`totalRecords = inserted + updated + skipped`, with `inserted` the size of the
insert-set, `updated` the size of the update-set, and `skipped` the number of
rows excluded by the per-row validity gate. -/
theorem c5_result_counts (f : Faults) (records : List RawRecord)
    (db db' : List Contact) (res : CsvImportResult)
    (h : importContacts f records db = (db', .ok res)) :
    res.totalRecords = res.inserted + res.updated + res.skipped ∧
    res.inserted = (insertSetOf records db).length ∧
    res.updated = (updateSetOf records db).length ∧
    res.skipped = (importStage records).2.1 := by
  simp only [importContacts] at h
  cases htx : importTxBody f (importStage records).1 db with
  | error e => rw [htx] at h; simp at h
  | ok v =>
    obtain ⟨db2, ins, upd⟩ := v
    rw [htx] at h
    simp only [Prod.mk.injEq, Except.ok.injEq] at h
    obtain ⟨-, hres⟩ := h
    obtain ⟨hins, hupd⟩ := importTxBody_ok htx
    subst hres
    refine ⟨?_, hins, hupd, rfl⟩
    simp only [insertSetOf, updateSetOf] at *
    have hp := partitionContacts_lengths (importStage records).1
      (existingIdsProbe db ((importStage records).1.map (fun c => c.contact_id)))
    omega

/-- **C5** witness: a two-row import (one insert, one update) against a
one-row database. -/
theorem c5_result_counts_witness :
    importContacts noFaults
        [⟨some "8", some "N", none, none, none, none, none, some "3", none⟩,
         ⟨some "7", some "U", none, none, none, none, none, some "3", none⟩,
         ⟨some "x", none, none, none, none, none, none, none, none⟩]
        [⟨7, "A", "B", "", "", "", "1/1/2024", 3, "F"⟩] =
      ([⟨7, "U", "", "", "", "", "", 3, ""⟩,
        ⟨8, "N", "", "", "", "", "", 3, ""⟩],
       .ok ⟨3, 1, 1, 1, ["Skipping record with invalid contact_id: x"]⟩) ∧
    (3 : Nat) = 1 + 1 + 1 := by
  constructor
  · decide
  · exact (c5_result_counts noFaults
      [⟨some "8", some "N", none, none, none, none, none, some "3", none⟩,
       ⟨some "7", some "U", none, none, none, none, none, some "3", none⟩,
       ⟨some "x", none, none, none, none, none, none, none, none⟩]
      [⟨7, "A", "B", "", "", "", "1/1/2024", 3, "F"⟩]
      [⟨7, "U", "", "", "", "", "", 3, ""⟩, ⟨8, "N", "", "", "", "", "", 3, ""⟩]
      ⟨3, 1, 1, 1, ["Skipping record with invalid contact_id: x"]⟩ (by decide)).1

/-- **C9**.  Every record staged into the batch — hence every inserted or
updated row — has a positive `contact_id` and a positive `law_firm_id`; a row
whose `law_firm_id` is empty or non-positive is skipped with its own message,
exactly like a bad natural key. -/
theorem c9_staged_ids_positive :
    (∀ (records : List RawRecord) (c : Contact),
      c ∈ (importStage records).1 → 0 < c.contact_id ∧ 0 < c.law_firm_id) ∧
    (∀ (r : RawRecord) (rest : List RawRecord) (acc : List Contact) (sk : Nat)
      (errs : List String),
      acc.length < MAX_RECORDS_PER_BATCH →
      contactKeyInvalidB r = false →
      lawFirmKeyInvalidB r = true →
      stageLoop (r :: rest) acc sk errs =
        stageLoop rest acc (sk + 1)
          (errs ++ ["Skipping record with invalid law_firm_id: " ++
            (if rawLawFirmId r = "" then "<empty>" else rawLawFirmId r)])) := by
  constructor
  · intro records c hc
    exact stageLoop_mem (by simp) hc
  · intro r rest acc sk errs hlen hcok hlbad
    rw [stageLoop, if_neg (by omega), if_neg (by simp [hcok]), if_pos hlbad]

/-- **C9** witness: a staged record has positive identifiers, and a record
with a good natural key but a blank `law_firm_id` is skipped with the
law-firm message. -/
theorem c9_staged_ids_positive_witness :
    ((⟨3, "A", "", "", "", "", "", 5, ""⟩ : Contact) ∈
      (importStage [⟨some "3", some "A", none, none, none, none, none,
        some "5", none⟩]).1 ∧
     (0 : Int) < 3 ∧ (0 : Int) < 5) ∧
    stageLoop [⟨some "4", none, none, none, none, none, none, none, none⟩] [] 0 [] =
      stageLoop [] [] 1 ["Skipping record with invalid law_firm_id: <empty>"] := by
  constructor
  · refine ⟨by decide, ?_, ?_⟩
    · exact (c9_staged_ids_positive.1
        [⟨some "3", some "A", none, none, none, none, none, some "5", none⟩]
        ⟨3, "A", "", "", "", "", "", 5, ""⟩ (by decide)).1
    · exact (c9_staged_ids_positive.1
        [⟨some "3", some "A", none, none, none, none, none, some "5", none⟩]
        ⟨3, "A", "", "", "", "", "", 5, ""⟩ (by decide)).2
  · have h := c9_staged_ids_positive.2
      ⟨some "4", none, none, none, none, none, none, none, none⟩ [] [] 0 []
      (by decide) (by decide) (by decide)
    simpa using h

/-- Behaviour of the staging loop on a list of records that all pass both
per-row gates: everything up to the remaining capacity is staged in order,
nothing is skipped, and one truncation message is pushed iff the cap cuts the
list short. -/
lemma stageLoop_all_valid (l : List RawRecord) :
    ∀ (acc : List Contact) (sk : Nat) (errs : List String),
      (∀ r ∈ l, contactKeyInvalidB r = false ∧ lawFirmKeyInvalidB r = false) →
      acc.length ≤ MAX_RECORDS_PER_BATCH →
      stageLoop l acc sk errs =
        if l.length ≤ MAX_RECORDS_PER_BATCH - acc.length then
          (acc ++ l.map stageRecord, sk, errs)
        else
          (acc ++ (l.take (MAX_RECORDS_PER_BATCH - acc.length)).map stageRecord,
            sk, errs ++ [batchLimitError]) := by
  induction l with
  | nil =>
    intro acc sk errs _ _
    simp [stageLoop]
  | cons r rest ih =>
    intro acc sk errs hv hacc
    have hr := hv r (by simp)
    have hv' : ∀ x ∈ rest, contactKeyInvalidB x = false ∧ lawFirmKeyInvalidB x = false :=
      fun x hx => hv x (by simp [hx])
    by_cases hm : MAX_RECORDS_PER_BATCH ≤ acc.length
    · have hlen : acc.length = MAX_RECORDS_PER_BATCH := le_antisymm hacc hm
      rw [stageLoop, if_pos hm, if_neg (by simp [hlen])]
      simp [hlen]
    · push_neg at hm
      rw [stageLoop, if_neg (by omega), if_neg (by simp [hr.1]),
        if_neg (by simp [hr.2]),
        ih (acc ++ [stageRecord r]) sk errs hv' (by simp; omega)]
      have hsub : MAX_RECORDS_PER_BATCH - acc.length =
          (MAX_RECORDS_PER_BATCH - (acc.length + 1)) + 1 := by omega
      by_cases hc : rest.length ≤ MAX_RECORDS_PER_BATCH - (acc.length + 1)
      · rw [if_pos (by simpa using hc), if_pos (by simp; omega)]
        simp
      · rw [if_neg (by simpa using hc), if_neg (by simp; omega), hsub,
          List.take_succ_cons]
        simp

lemma partition_all_false {p : Contact → Bool} {l : List Contact}
    (h : ∀ x ∈ l, p x = false) : l.partition p = ([], l) := by
  rw [List.partition_eq_filter_filter]
  have h1 : l.filter p = [] := by
    simpa [List.filter_eq_nil_iff] using h
  have h2 : l.filter (not ∘ p) = l := by
    rw [List.filter_eq_self]
    intro a ha
    simp [h a ha]
  rw [h1, h2]

lemma partition_all_true {p : Contact → Bool} {l : List Contact}
    (h : ∀ x ∈ l, p x = true) : l.partition p = (l, []) := by
  rw [List.partition_eq_filter_filter]
  have h1 : l.filter p = l := by
    rw [List.filter_eq_self]
    intro a ha
    simp [h a ha]
  have h2 : l.filter (not ∘ p) = [] := by
    rw [List.filter_eq_nil_iff]
    intro a ha
    simp [h a ha]
  rw [h1, h2]

lemma insertStep_noconflict {db rows : List Contact}
    (h1 : (rows.map (fun c => c.contact_id)).Nodup)
    (h2 : rows.any (fun r => db.any (fun c => c.contact_id == r.contact_id)) = false) :
    insertStep noFaults db rows = .ok (db ++ rows, rows.length) := by
  unfold insertStep insertConflictB noFaults
  split_ifs with hl hc
  · exfalso
    simp [h1, h2] at hc
  · rfl
  · have : rows = [] := by
      cases rows with
      | nil => rfl
      | cons a l => simp at hl
    subst this
    simp

lemma updateStep_nofault (db us : List Contact) :
    updateStep noFaults db us = .ok (applyUpdates db us, us.length) := by
  unfold updateStep noFaults
  split_ifs with hl hf
  · simp at hf
  · rfl
  · have : us = [] := by
      cases us with
      | nil => rfl
      | cons a l => simp at hl
    subst this
    simp [applyUpdates]

lemma applyUpdates_length (us db : List Contact) :
    (applyUpdates db us).length = db.length := by
  induction us generalizing db with
  | nil => rfl
  | cons u us ih =>
    unfold applyUpdates at ih ⊢
    rw [List.foldl_cons, ih]
    simp

lemma applyUpdates_mem : ∀ (us db : List Contact) (c : Contact),
    c ∈ applyUpdates db us → c ∈ db ∨ c ∈ us
  | [], db, c, h => .inl (by simpa [applyUpdates] using h)
  | u :: us, db, c, h => by
    have h' : c ∈ applyUpdates
        (db.map (fun x => if x.contact_id == u.contact_id then u else x)) us := by
      simpa [applyUpdates, List.foldl_cons] using h
    rcases applyUpdates_mem us _ c h' with hm | hm
    · rcases List.mem_map.mp hm with ⟨x, hx, hxe⟩
      by_cases hxi : (x.contact_id == u.contact_id) = true
      · rw [if_pos hxi] at hxe
        exact .inr (by simp [← hxe])
      · rw [if_neg hxi] at hxe
        exact .inl (hxe ▸ hx)
    · exact .inr (by simp [hm])

lemma insertStep_ok_db {f : Faults} {db rows db' : List Contact} {n : Nat}
    (h : insertStep f db rows = .ok (db', n)) : db' = db ++ rows := by
  unfold insertStep at h
  by_cases h1 : 0 < rows.length
  · rw [if_pos h1] at h
    by_cases h2 : (f.insertFault || insertConflictB db rows) = true
    · rw [if_pos h2] at h
      simp at h
    · rw [if_neg h2] at h
      simp only [Except.ok.injEq, Prod.mk.injEq] at h
      exact h.1.symm
  · rw [if_neg h1] at h
    simp only [Except.ok.injEq, Prod.mk.injEq] at h
    have hr : rows = [] := by
      cases rows with
      | nil => rfl
      | cons a l => simp at h1
    rw [hr, List.append_nil]
    exact h.1.symm

lemma updateStep_ok_db {f : Faults} {db us db' : List Contact} {n : Nat}
    (h : updateStep f db us = .ok (db', n)) : db' = applyUpdates db us := by
  unfold updateStep at h
  by_cases h1 : 0 < us.length
  · rw [if_pos h1] at h
    by_cases h2 : f.updateFault = true
    · rw [if_pos h2] at h
      simp at h
    · rw [if_neg h2] at h
      simp only [Except.ok.injEq, Prod.mk.injEq] at h
      exact h.1.symm
  · rw [if_neg h1] at h
    simp only [Except.ok.injEq, Prod.mk.injEq] at h
    have hu : us = [] := by
      cases us with
      | nil => rfl
      | cons a l => simp at h1
    rw [hu]
    simpa [applyUpdates] using h.1.symm

lemma partitionContacts_mem_left {staged : List Contact} {ids : List Int}
    {c : Contact} (h : c ∈ (partitionContacts staged ids).1) : c ∈ staged := by
  rw [partitionContacts, List.partition_eq_filter_filter] at h
  exact (List.mem_filter.mp h).1

lemma partitionContacts_mem_right {staged : List Contact} {ids : List Int}
    {c : Contact} (h : c ∈ (partitionContacts staged ids).2) : c ∈ staged := by
  rw [partitionContacts, List.partition_eq_filter_filter] at h
  exact (List.mem_filter.mp h).1

/-- Rows visible after a successful transaction come either from the original
state or from the staged batch. -/
lemma importTxBody_mem {f : Faults} {staged db db2 : List Contact}
    {ins upd : Nat} (h : importTxBody f staged db = .ok (db2, ins, upd)) :
    ∀ c ∈ db2, c ∈ db ∨ c ∈ staged := by
  simp only [importTxBody] at h
  cases hi : insertStep f db (partitionContacts staged (existingIdsProbe db
      (staged.map (fun c => c.contact_id)))).2 with
  | error e => rw [hi] at h; simp at h
  | ok v =>
    obtain ⟨db1, n1⟩ := v
    rw [hi] at h
    simp only [] at h
    cases hu : updateStep f db1 (partitionContacts staged (existingIdsProbe db
        (staged.map (fun c => c.contact_id)))).1 with
    | error e => rw [hu] at h; simp at h
    | ok w =>
      obtain ⟨dbu, n2⟩ := w
      rw [hu] at h
      simp only [Except.ok.injEq, Prod.mk.injEq] at h
      obtain ⟨hdb, -, -⟩ := h
      subst hdb
      intro c hc
      rw [updateStep_ok_db hu, insertStep_ok_db hi] at hc
      rcases applyUpdates_mem _ _ _ hc with hm | hm
      · rcases List.mem_append.mp hm with hm | hm
        · exact .inl hm
        · exact .inr (partitionContacts_mem_right hm)
      · exact .inr (partitionContacts_mem_left hm)

/-- Naive substring test, used to state what a message does (not) report. -/
def strContainsSub (hay sub : String) : Bool :=
  (List.range (hay.length + 1)).any (fun i => sub.data.isPrefixOf (hay.data.drop i))

/-- A record that passes both per-row gates and is pushed onto `contacts`. -/
def stageableB (r : RawRecord) : Bool :=
  !contactKeyInvalidB r && !lawFirmKeyInvalidB r

lemma string_data_append : ∀ (a b : String), (a ++ b).data = a.data ++ b.data :=
  fun ⟨_⟩ ⟨_⟩ => rfl

/-- A per-row skip message is never the truncation message (`S` vs `B`). -/
lemma skip_msg_ne_batch (pre x : String) (hp : pre.data.head? = some 'S') :
    (pre ++ x) ≠ batchLimitError := by
  intro h
  have h2 : (pre ++ x).data.head? = batchLimitError.data.head? := by rw [h]
  rw [string_data_append] at h2
  obtain ⟨t, ht⟩ : ∃ t, pre.data = 'S' :: t := by
    cases hd : pre.data with
    | nil => rw [hd] at hp; exact absurd hp (by simp)
    | cons a t =>
      rw [hd] at hp
      simp only [List.head?_cons, Option.some.injEq] at hp
      exact ⟨t, by rw [hp]⟩
  rw [ht, List.cons_append, List.head?_cons,
    show batchLimitError.data.head? = some 'B' from by decide] at h2
  exact absurd h2 (by decide)

/-- Behaviour of the staging loop on an arbitrary record list whose stageable
rows overflow the remaining capacity: the stageable rows are staged in order
until the cap, each skipped row before the cut contributes exactly one skip
message and one `skipped` tick, and exactly one truncation message ends the
error list. -/
lemma stageLoop_mixed_cap (l : List RawRecord) :
    ∀ (acc : List Contact) (sk : Nat) (errs : List String),
      acc.length ≤ MAX_RECORDS_PER_BATCH →
      MAX_RECORDS_PER_BATCH <
        acc.length + (l.filter (fun r => stageableB r)).length →
      ∃ skmsgs : List String,
        stageLoop l acc sk errs =
          (acc ++ ((l.filter (fun r => stageableB r)).take
              (MAX_RECORDS_PER_BATCH - acc.length)).map stageRecord,
            sk + skmsgs.length, errs ++ skmsgs ++ [batchLimitError]) ∧
        (∀ m ∈ skmsgs, ∃ x : String,
          m = "Skipping record with invalid contact_id: " ++ x ∨
          m = "Skipping record with invalid law_firm_id: " ++ x) ∧
        ((∀ r ∈ l.take (MAX_RECORDS_PER_BATCH - acc.length),
          stageableB r = true) → skmsgs = []) := by
  induction l with
  | nil =>
    intro acc sk errs hacc hcount
    simp only [List.filter_nil, List.length_nil] at hcount
    omega
  | cons r rest ih =>
    intro acc sk errs hacc hcount
    by_cases hm : MAX_RECORDS_PER_BATCH ≤ acc.length
    · have h0 : MAX_RECORDS_PER_BATCH - acc.length = 0 := by omega
      refine ⟨[], ?_, by simp, fun _ => rfl⟩
      rw [stageLoop, if_pos hm, h0]
      simp
    · push_neg at hm
      by_cases hc : contactKeyInvalidB r = true
      · have hs : stageableB r = false := by simp [stageableB, hc]
        have hfil : (r :: rest).filter (fun r => stageableB r) =
            rest.filter (fun r => stageableB r) := by
          simp [List.filter_cons, hs]
        rw [hfil] at hcount
        obtain ⟨skmsgs, heq, hform, -⟩ := ih acc (sk + 1)
          (errs ++ ["Skipping record with invalid contact_id: " ++
            (if rawContactId r = "" then "<empty>" else rawContactId r)])
          hacc hcount
        refine ⟨("Skipping record with invalid contact_id: " ++
            (if rawContactId r = "" then "<empty>" else rawContactId r)) ::
          skmsgs, ?_, ?_, ?_⟩
        · rw [stageLoop, if_neg (by omega), if_pos hc, heq, hfil]
          simp only [Prod.mk.injEq, List.length_cons, List.append_assoc,
            List.cons_append, List.singleton_append]
          exact ⟨by simp, by omega, by simp⟩
        · intro m hmem
          rcases List.mem_cons.mp hmem with hme | hme
          · exact ⟨(if rawContactId r = "" then "<empty>" else rawContactId r),
              Or.inl hme⟩
          · exact hform m hme
        · intro hall
          exfalso
          have hrmem : r ∈ (r :: rest).take (MAX_RECORDS_PER_BATCH - acc.length) := by
            rw [show MAX_RECORDS_PER_BATCH - acc.length =
                (MAX_RECORDS_PER_BATCH - acc.length - 1) + 1 from by omega,
              List.take_succ_cons]
            simp
          have := hall r hrmem
          simp [hs] at this
      · have hcf : contactKeyInvalidB r = false := by
          cases hb : contactKeyInvalidB r with
          | false => rfl
          | true => exact absurd hb hc
        by_cases hlf : lawFirmKeyInvalidB r = true
        · have hs : stageableB r = false := by simp [stageableB, hlf]
          have hfil : (r :: rest).filter (fun r => stageableB r) =
              rest.filter (fun r => stageableB r) := by
            simp [List.filter_cons, hs]
          rw [hfil] at hcount
          obtain ⟨skmsgs, heq, hform, -⟩ := ih acc (sk + 1)
            (errs ++ ["Skipping record with invalid law_firm_id: " ++
              (if rawLawFirmId r = "" then "<empty>" else rawLawFirmId r)])
            hacc hcount
          refine ⟨("Skipping record with invalid law_firm_id: " ++
              (if rawLawFirmId r = "" then "<empty>" else rawLawFirmId r)) ::
            skmsgs, ?_, ?_, ?_⟩
          · rw [stageLoop, if_neg (by omega), if_neg (by simp [hcf]),
              if_pos hlf, heq, hfil]
            simp only [Prod.mk.injEq, List.length_cons, List.append_assoc,
              List.cons_append, List.singleton_append]
            exact ⟨by simp, by omega, by simp⟩
          · intro m hmem
            rcases List.mem_cons.mp hmem with hme | hme
            · exact ⟨(if rawLawFirmId r = "" then "<empty>" else rawLawFirmId r),
                Or.inr hme⟩
            · exact hform m hme
          · intro hall
            exfalso
            have hrmem : r ∈ (r :: rest).take (MAX_RECORDS_PER_BATCH - acc.length) := by
              rw [show MAX_RECORDS_PER_BATCH - acc.length =
                  (MAX_RECORDS_PER_BATCH - acc.length - 1) + 1 from by omega,
                List.take_succ_cons]
              simp
            have := hall r hrmem
            simp [hs] at this
        · have hlff : lawFirmKeyInvalidB r = false := by
            cases hb : lawFirmKeyInvalidB r with
            | false => rfl
            | true => exact absurd hb hlf
          have hs : stageableB r = true := by simp [stageableB, hcf, hlff]
          have hfil : (r :: rest).filter (fun r => stageableB r) =
              r :: rest.filter (fun r => stageableB r) := by
            simp [List.filter_cons, hs]
          rw [hfil] at hcount
          have hacc' : (acc ++ [stageRecord r]).length ≤ MAX_RECORDS_PER_BATCH := by
            simp
            omega
          have hcount' : MAX_RECORDS_PER_BATCH < (acc ++ [stageRecord r]).length +
              (rest.filter (fun r => stageableB r)).length := by
            simp only [List.length_cons] at hcount
            simp
            omega
          obtain ⟨skmsgs, heq, hform, hvalid⟩ :=
            ih (acc ++ [stageRecord r]) sk errs hacc' hcount'
          refine ⟨skmsgs, ?_, hform, ?_⟩
          · rw [stageLoop, if_neg (by omega), if_neg (by simp [hcf]),
              if_neg (by simp [hlff]), heq, hfil]
            have hsub : MAX_RECORDS_PER_BATCH - acc.length =
                (MAX_RECORDS_PER_BATCH - (acc.length + 1)) + 1 := by omega
            rw [hsub, List.take_succ_cons]
            simp
          · intro hall
            refine hvalid ?_
            intro x hx
            have hxx : x ∈ rest.take (MAX_RECORDS_PER_BATCH - (acc.length + 1)) := by
              simpa using hx
            refine hall x ?_
            rw [show MAX_RECORDS_PER_BATCH - acc.length =
                (MAX_RECORDS_PER_BATCH - (acc.length + 1)) + 1 from by omega,
              List.take_succ_cons]
            exact List.mem_cons_of_mem _ hxx

/-- **C4** (amended).  Whenever the input holds more than
`MAX_RECORDS_PER_BATCH` stageable rows — invalid rows freely interleaved —
parsing stops once the staged count reaches the cap: the staged batch is
exactly the first `MAX` stageable rows in order, exactly one truncation
message is appended (reporting the fixed batch limit, not how many records
were truncated), every row visible after any call comes from the original
state or from those first `MAX` staged rows, and a completed call reports
`totalRecords = MAX + skipped` — so `totalRecords = MAX` whenever all rows up
to the cap are valid. -/
theorem c4_batch_cap (records : List RawRecord) (db : List Contact)
    (hover : MAX_RECORDS_PER_BATCH <
      (records.filter (fun r => stageableB r)).length) :
    ∃ skipMsgs : List String,
      importStage records =
        (((records.filter (fun r => stageableB r)).take
            MAX_RECORDS_PER_BATCH).map stageRecord,
          skipMsgs.length, skipMsgs ++ [batchLimitError]) ∧
      (importStage records).1.length = MAX_RECORDS_PER_BATCH ∧
      batchLimitError ∉ skipMsgs ∧
      ((∀ r ∈ records.take MAX_RECORDS_PER_BATCH, stageableB r = true) →
        skipMsgs = []) ∧
      ∀ (f : Faults) (db' : List Contact) (out : Except DbError CsvImportResult),
        importContacts f records db = (db', out) →
        (∀ c ∈ db', c ∈ db ∨
          c ∈ ((records.filter (fun r => stageableB r)).take
            MAX_RECORDS_PER_BATCH).map stageRecord) ∧
        ∀ res : CsvImportResult, out = .ok res →
          res.errors = skipMsgs ++ [batchLimitError] ∧
          res.skipped = skipMsgs.length ∧
          res.totalRecords = MAX_RECORDS_PER_BATCH + res.skipped := by
  obtain ⟨skmsgs, heq, hform, hvalid⟩ :=
    stageLoop_mixed_cap records [] 0 [] (by simp) (by simpa using hover)
  have hstage : importStage records =
      (((records.filter (fun r => stageableB r)).take
          MAX_RECORDS_PER_BATCH).map stageRecord,
        skmsgs.length, skmsgs ++ [batchLimitError]) := by
    unfold importStage
    rw [heq]
    simp
  have hlen1 : (((records.filter (fun r => stageableB r)).take
      MAX_RECORDS_PER_BATCH).map stageRecord).length = MAX_RECORDS_PER_BATCH := by
    simp only [List.length_map, List.length_take]
    omega
  refine ⟨skmsgs, hstage, by rw [hstage]; exact hlen1, ?_, hvalid, ?_⟩
  · intro hmem
    obtain ⟨x, hx⟩ := hform _ hmem
    rcases hx with hx | hx
    · exact skip_msg_ne_batch _ x (by decide) hx.symm
    · exact skip_msg_ne_batch _ x (by decide) hx.symm
  · intro f db' out h
    simp only [importContacts, hstage] at h
    cases htx : importTxBody f (((records.filter (fun r => stageableB r)).take
        MAX_RECORDS_PER_BATCH).map stageRecord) db with
    | error e =>
      rw [htx] at h
      simp only [Prod.mk.injEq] at h
      obtain ⟨hdb, hout⟩ := h
      subst hdb
      refine ⟨fun c hc => .inl hc, ?_⟩
      intro res hres
      rw [← hout] at hres
      simp at hres
    | ok v =>
      obtain ⟨db2, ins, upd⟩ := v
      rw [htx] at h
      simp only [Prod.mk.injEq] at h
      obtain ⟨hdb, hout⟩ := h
      subst hdb
      refine ⟨fun c hc => importTxBody_mem htx c hc, ?_⟩
      intro res hres
      rw [← hout] at hres
      simp only [Except.ok.injEq] at hres
      subst hres
      refine ⟨rfl, rfl, ?_⟩
      simp only [hlen1]

/-- A stageable record used by concrete instances (key 7, law firm 3). -/
def sampleValidRecord : RawRecord :=
  ⟨some "7", none, none, none, none, none, none, some "3", none⟩

lemma importStage_replicate_over_cap {n : Nat} (hn : MAX_RECORDS_PER_BATCH < n) :
    importStage (List.replicate n sampleValidRecord) =
      (((List.replicate n sampleValidRecord).take MAX_RECORDS_PER_BATCH).map
        stageRecord, 0, [batchLimitError]) := by
  unfold importStage
  have hcond : ¬ ((List.replicate n sampleValidRecord).length ≤
      MAX_RECORDS_PER_BATCH - ([] : List Contact).length) := by
    simp only [List.length_replicate, List.length_nil, Nat.sub_zero]
    omega
  rw [stageLoop_all_valid _ [] 0 []
    (fun r hr => by
      have hre := List.eq_of_mem_replicate hr
      subst hre
      exact ⟨by decide, by decide⟩)
    (by simp), if_neg hcond]
  simp

/-- **C4** counterexample to the claim as stated: the single truncation
message is the same whether 1 or 3 records were truncated, and for the
1003-row input (3 rows truncated) it does not even contain the digit `3` —
it reports the fixed batch limit, not how many records were truncated. -/
theorem c4_counterexample_truncation_message :
    (importStage (List.replicate 1001 sampleValidRecord)).2.2 =
      (importStage (List.replicate 1003 sampleValidRecord)).2.2 ∧
    (importStage (List.replicate 1003 sampleValidRecord)).2.2 = [batchLimitError] ∧
    strContainsSub batchLimitError "3" = false := by
  have h1 := importStage_replicate_over_cap (n := 1001) (by decide)
  have h3 := importStage_replicate_over_cap (n := 1003) (by decide)
  refine ⟨?_, ?_, by decide⟩
  · rw [h1, h3]
  · rw [h3]

/-- **C4** witness: 1001 stageable rows and an empty store satisfy the
over-cap hypothesis, and the theorem applies. -/
theorem c4_batch_cap_witness :
    (MAX_RECORDS_PER_BATCH <
      ((List.replicate 1001 sampleValidRecord).filter
        (fun r => stageableB r)).length) ∧
    (∃ skipMsgs : List String,
      importStage (List.replicate 1001 sampleValidRecord) =
        ((((List.replicate 1001 sampleValidRecord).filter
            (fun r => stageableB r)).take
            MAX_RECORDS_PER_BATCH).map stageRecord,
          skipMsgs.length, skipMsgs ++ [batchLimitError]) ∧
      (importStage (List.replicate 1001 sampleValidRecord)).1.length =
        MAX_RECORDS_PER_BATCH ∧
      batchLimitError ∉ skipMsgs ∧
      ((∀ r ∈ (List.replicate 1001 sampleValidRecord).take
          MAX_RECORDS_PER_BATCH, stageableB r = true) → skipMsgs = []) ∧
      ∀ (f : Faults) (db' : List Contact) (out : Except DbError CsvImportResult),
        importContacts f (List.replicate 1001 sampleValidRecord) [] = (db', out) →
        (∀ c ∈ db', c ∈ ([] : List Contact) ∨
          c ∈ (((List.replicate 1001 sampleValidRecord).filter
            (fun r => stageableB r)).take
            MAX_RECORDS_PER_BATCH).map stageRecord) ∧
        ∀ res : CsvImportResult, out = .ok res →
          res.errors = skipMsgs ++ [batchLimitError] ∧
          res.skipped = skipMsgs.length ∧
          res.totalRecords = MAX_RECORDS_PER_BATCH + res.skipped) := by
  have hfil : (List.replicate 1001 sampleValidRecord).filter
      (fun r => stageableB r) = List.replicate 1001 sampleValidRecord := by
    rw [List.filter_eq_self]
    intro a ha
    rw [List.eq_of_mem_replicate ha]
    decide
  have hp : MAX_RECORDS_PER_BATCH <
      ((List.replicate 1001 sampleValidRecord).filter
        (fun r => stageableB r)).length := by
    rw [hfil, List.length_replicate]
    decide
  exact ⟨hp, c4_batch_cap (List.replicate 1001 sampleValidRecord) [] hp⟩

/-- **C3** (amended).  Importing a fully-valid CSV whose rows fit the batch
cap, have pairwise-distinct keys, and whose keys are all absent from storage
yields `inserted = N, updated = 0` on the first call and
`inserted = 0, updated = N` on the second, with the stored row count after
the second call equal to that after the first. -/
theorem c3_idempotent_upsert (records : List RawRecord) (db : List Contact)
    (hv : ∀ r ∈ records, contactKeyInvalidB r = false ∧ lawFirmKeyInvalidB r = false)
    (hcap : records.length ≤ MAX_RECORDS_PER_BATCH)
    (hnodup : ((records.map stageRecord).map (fun c => c.contact_id)).Nodup)
    (hfresh : ∀ c ∈ db, ∀ r ∈ records, c.contact_id ≠ (stageRecord r).contact_id) :
    ∃ (db1 db2 : List Contact) (res1 res2 : CsvImportResult),
      importContacts noFaults records db = (db1, .ok res1) ∧
      res1.inserted = records.length ∧ res1.updated = 0 ∧
      importContacts noFaults records db1 = (db2, .ok res2) ∧
      res2.inserted = 0 ∧ res2.updated = records.length ∧
      db2.length = db1.length := by
  have hstage : importStage records = (records.map stageRecord, 0, []) := by
    unfold importStage
    rw [stageLoop_all_valid records [] 0 [] hv (by simp),
      if_pos (by simpa using hcap)]
    simp
  set staged := records.map stageRecord with hsdef
  have hpos : ∀ c ∈ staged, 0 < c.contact_id := by
    intro c hc
    rcases List.mem_map.mp hc with ⟨r, hr, rfl⟩
    exact (stageRecord_pos (hv r hr).1 (hv r hr).2).1
  have hdbfilter : db.filter
      (fun c => (staged.map (fun c => c.contact_id)).contains c.contact_id) = [] := by
    rw [List.filter_eq_nil_iff]
    intro c hc
    simp only [List.contains, Bool.not_eq_true]
    rw [Bool.eq_false_iff]
    intro helem
    have hmem : c.contact_id ∈ staged.map (fun c => c.contact_id) :=
      List.elem_iff.mp helem
    rcases List.mem_map.mp hmem with ⟨x, hx, hxe⟩
    rcases List.mem_map.mp hx with ⟨r, hr, rfl⟩
    exact hfresh c hc r hr hxe.symm
  have hprobe1 : existingIdsProbe db (staged.map (fun c => c.contact_id)) = [] := by
    unfold existingIdsProbe
    rw [hdbfilter]
    rfl
  have hpart1 : partitionContacts staged [] = ([], staged) := by
    apply partition_all_false
    intro x _
    simp [List.contains]
  have hcol : staged.any
      (fun r => db.any (fun c => c.contact_id == r.contact_id)) = false := by
    rw [Bool.eq_false_iff]
    intro hany
    rw [List.any_eq_true] at hany
    obtain ⟨x, hx, hda⟩ := hany
    rw [List.any_eq_true] at hda
    obtain ⟨c, hcdb, hce⟩ := hda
    rcases List.mem_map.mp hx with ⟨r, hr, rfl⟩
    exact hfresh c hcdb r hr (by simpa using hce)
  have htx1 : importTxBody noFaults staged db =
      .ok (db ++ staged, staged.length, 0) := by
    simp only [importTxBody, hprobe1, hpart1]
    rw [insertStep_noconflict hnodup hcol]
    simp only []
    rw [show updateStep noFaults (db ++ staged) [] = .ok (db ++ staged, 0) from by
      unfold updateStep
      simp]
  have hc1 : importContacts noFaults records db =
      (db ++ staged, .ok ⟨staged.length + 0, staged.length, 0, 0, []⟩) := by
    simp only [importContacts, hstage, htx1]
  have hstagedfilter : staged.filter
      (fun c => (staged.map (fun c => c.contact_id)).contains c.contact_id) = staged := by
    rw [List.filter_eq_self]
    intro a ha
    simp only [List.contains]
    exact List.elem_iff.mpr (List.mem_map_of_mem _ ha)
  have hprobe2 : existingIdsProbe (db ++ staged) (staged.map (fun c => c.contact_id)) =
      staged.map (fun c => c.contact_id) := by
    unfold existingIdsProbe
    rw [List.filter_append, hdbfilter, hstagedfilter]
    simp
  have hpart2 : partitionContacts staged (staged.map (fun c => c.contact_id)) =
      (staged, []) := by
    apply partition_all_true
    intro x hx
    simp only [Bool.and_eq_true, Bool.not_eq_true']
    constructor
    · have := hpos x hx
      simp only [beq_eq_false_iff_ne, ne_eq]
      omega
    · simp only [List.contains]
      exact List.elem_iff.mpr (List.mem_map_of_mem _ hx)
  have htx2 : importTxBody noFaults staged (db ++ staged) =
      .ok (applyUpdates (db ++ staged) staged, 0, staged.length) := by
    simp only [importTxBody, hprobe2, hpart2]
    rw [show insertStep noFaults (db ++ staged) [] = .ok (db ++ staged, 0) from by
      unfold insertStep
      simp]
    simp only []
    rw [updateStep_nofault]
  have hc2 : importContacts noFaults records (db ++ staged) =
      (applyUpdates (db ++ staged) staged,
        .ok ⟨staged.length + 0, 0, staged.length, 0, []⟩) := by
    simp only [importContacts, hstage, htx2]
  refine ⟨db ++ staged, applyUpdates (db ++ staged) staged,
    ⟨staged.length + 0, staged.length, 0, 0, []⟩,
    ⟨staged.length + 0, 0, staged.length, 0, []⟩,
    hc1, ?_, rfl, hc2, rfl, ?_, ?_⟩
  · simp [hsdef]
  · simp [hsdef]
  · rw [applyUpdates_length]

/-- **C3** counterexample to the claim as stated: a valid two-row CSV whose
two rows share the fresh key 7 — `contact_id` is the table's primary column,
so the bulk insert violates uniqueness, the transaction rolls back and the
call throws instead of yielding `inserted = 2`. -/
theorem c3_counterexample_duplicate_keys :
    importContacts noFaults
        [⟨some "7", some "A", none, none, none, none, none, some "3", none⟩,
         ⟨some "7", some "B", none, none, none, none, none, some "3", none⟩] [] =
      ([], .error .insertFailure) := by
  decide

/-- **C3** witness: one fresh-keyed row imported twice into an empty store. -/
theorem c3_idempotent_upsert_witness :
    ∃ (db1 db2 : List Contact) (res1 res2 : CsvImportResult),
      importContacts noFaults
        [⟨some "9", some "A", none, none, none, none, none, some "3", none⟩] [] =
        (db1, .ok res1) ∧
      res1.inserted = ([⟨some "9", some "A", none, none, none, none, none,
        some "3", none⟩] : List RawRecord).length ∧ res1.updated = 0 ∧
      importContacts noFaults
        [⟨some "9", some "A", none, none, none, none, none, some "3", none⟩] db1 =
        (db2, .ok res2) ∧
      res2.inserted = 0 ∧
      res2.updated = ([⟨some "9", some "A", none, none, none, none, none,
        some "3", none⟩] : List RawRecord).length ∧
      db2.length = db1.length :=
  c3_idempotent_upsert
    [⟨some "9", some "A", none, none, none, none, none, some "3", none⟩] []
    (by decide) (by decide) (by decide) (by simp)

/-!
## `controllers/contacts.ts` — `getContacts` sort handling

`sortField` is resolved against `VALIDATION.ALLOWED_SORT_FIELDS` before it is
ever interpolated into the `orderBy` column reference; ordering is applied
only when a `sortOrder` of `asc`/`desc` was supplied.
-/

inductive SortDir where
  | ASC
  | DESC
deriving DecidableEq

structure GetContactsQuery where
  sortField : Option String
  sortOrder : Option String
deriving DecidableEq

/-- `(req.query.sortField as string) || "contact_id"`. -/
def requestedSortField (q : GetContactsQuery) : String :=
  match q.sortField with
  | none => "contact_id"
  | some s => if s = "" then "contact_id" else s

/-- The allow-list check of `getContacts` (issue #38). -/
def sortFieldOf (q : GetContactsQuery) : String :=
  if ALLOWED_SORT_FIELDS.contains (requestedSortField q) then requestedSortField q
  else "contact_id"

/-- `requestedSortOrder === "asc" || requestedSortOrder === "desc"`. -/
def hasSortOrder (q : GetContactsQuery) : Bool :=
  q.sortOrder == some "asc" || q.sortOrder == some "desc"

/-- `requestedSortOrder === "desc" ? "DESC" : "ASC"`. -/
def sortOrderOf (q : GetContactsQuery) : SortDir :=
  if q.sortOrder == some "desc" then .DESC else .ASC

/-- The ORDER BY column actually attached to the query builder:
`orderByColumn["contact." + sortField] = sortOrder` when a sort order was
requested, nothing otherwise. -/
def orderByOf (q : GetContactsQuery) : Option (String × SortDir) :=
  if hasSortOrder q then some ("contact." ++ sortFieldOf q, sortOrderOf q)
  else none

/-- **C7**.  Every ORDER BY column used by `getContacts` is `contact.` followed
by a field from the explicit allow-list; the resolved sort field is always on
the allow-list, and any value not on it — such as `droptable` — falls back to
the natural key `contact_id` instead of erroring or being interpolated. -/
theorem c7_sort_field_allowlist :
    (∀ (q : GetContactsQuery) (col : String) (dir : SortDir),
      orderByOf q = some (col, dir) →
      sortFieldOf q ∈ ALLOWED_SORT_FIELDS ∧ col = "contact." ++ sortFieldOf q) ∧
    (∀ q : GetContactsQuery, sortFieldOf q ∈ ALLOWED_SORT_FIELDS) ∧
    (∀ q : GetContactsQuery, q.sortField = some "droptable" →
      sortFieldOf q = "contact_id") := by
  have hmem : ∀ q : GetContactsQuery, sortFieldOf q ∈ ALLOWED_SORT_FIELDS := by
    intro q
    unfold sortFieldOf
    by_cases hc : ALLOWED_SORT_FIELDS.contains (requestedSortField q) = true
    · rw [if_pos hc]
      exact List.elem_iff.mp hc
    · rw [if_neg hc]
      decide
  refine ⟨?_, hmem, ?_⟩
  · intro q col dir h
    unfold orderByOf at h
    by_cases ho : hasSortOrder q = true
    · rw [if_pos ho] at h
      simp only [Option.some.injEq, Prod.mk.injEq] at h
      exact ⟨hmem q, h.1.symm⟩
    · rw [if_neg ho] at h
      simp at h
  · intro q hq
    unfold sortFieldOf requestedSortField
    rw [hq]
    decide

/-- **C7** witness: `sortField=droptable` with `sortOrder=asc` orders by
`contact.contact_id`. -/
theorem c7_sort_field_allowlist_witness :
    (sortFieldOf ⟨some "droptable", some "asc"⟩ ∈ ALLOWED_SORT_FIELDS ∧
      "contact.contact_id" =
        "contact." ++ sortFieldOf ⟨some "droptable", some "asc"⟩) ∧
    sortFieldOf ⟨some "droptable", some "asc"⟩ = "contact_id" :=
  ⟨c7_sort_field_allowlist.1 ⟨some "droptable", some "asc"⟩
      "contact.contact_id" .ASC (by decide),
    c7_sort_field_allowlist.2.2 ⟨some "droptable", some "asc"⟩ rfl⟩

/-!
## `utils/sanitizer.ts` — `InputSanitizer`

The external `validator` library appears in the source only through
`validator.escape`, `validator.isEmail` and `validator.normalizeEmail`.
`escape` has the fixed, documented character map implemented below; the two
email functions are external collaborators and are passed in as an explicit
`EmailValidator` so every theorem quantifies over their behaviour.
-/

/-- `VALIDATION.MAX_STRING_LENGTH`. -/
def MAX_STRING_LENGTH : Nat := 500

/-- The external email functions of the `validator` package
(`normalizeEmail` returning `none` models its `false` result). -/
structure EmailValidator where
  isEmail : String → Bool
  normalizeEmail : String → Option String

/-- An `EmailValidator` instance used for concrete runs: accepts every string
and normalizes to itself. -/
def acceptAllEmails : EmailValidator :=
  ⟨fun _ => true, fun s => some s⟩

/-- ASCII lower-casing, as `toLowerCase` acts on the strings used here. -/
def toLowerChar (c : Char) : Char :=
  if 65 ≤ c.toNat ∧ c.toNat ≤ 90 then Char.ofNat (c.toNat + 32) else c

def toLowerStr (s : String) : String :=
  ⟨s.data.map toLowerChar⟩

/-- The character map of `validator.escape` (`&`, `"`, `'`, `<`, `>`, `/`,
`\` and the backtick, written via code points 39 and 96). -/
def escapeChar (c : Char) : List Char :=
  if c = '&' then "&amp;".data
  else if c = '"' then "&quot;".data
  else if c = Char.ofNat 39 then "&#x27;".data
  else if c = '<' then "&lt;".data
  else if c = '>' then "&gt;".data
  else if c = '/' then "&#x2F;".data
  else if c = '\\' then "&#x5C;".data
  else if c = Char.ofNat 96 then "&#96;".data
  else [c]

def escapeHtml (s : String) : String :=
  ⟨(s.data.map escapeChar).flatten⟩

/-- Characters kept by `sanitizePhone`'s `[^\d\s\-()+]` strip. -/
def isPhoneChar (c : Char) : Bool :=
  isDigitB c || isWsChar c || c == '-' || c == '(' || c == ')' || c == '+'

/-- A JSON request-body value feeding `sanitizeInteger`
(`string | number`, with `absent` for `null`/`undefined`). -/
inductive IntInput where
  | absent
  | str (s : String)
  | num (q : ℚ)
deriving DecidableEq

namespace InputSanitizer

/-- `sanitizeString`: trim, HTML-escape, truncate to `MAX_STRING_LENGTH`. -/
def sanitizeString (input : Option String) : String :=
  match input with
  | none => ""
  | some s =>
    if s = "" then ""
    else
      let trimmed := jsTrim s
      if trimmed = "" then ""
      else
        let sanitized := escapeHtml trimmed
        if MAX_STRING_LENGTH < sanitized.length then
          ⟨sanitized.data.take MAX_STRING_LENGTH⟩
        else sanitized

/-- `sanitizeEmail`: trim + lower-case, reject unless `isEmail`, then
`normalizeEmail(trimmed) || trimmed`. -/
def sanitizeEmail (E : EmailValidator) (email : Option String) : String :=
  match email with
  | none => ""
  | some s =>
    if s = "" then ""
    else
      let trimmed := toLowerStr (jsTrim s)
      if E.isEmail trimmed = false then ""
      else
        match E.normalizeEmail trimmed with
        | none => trimmed
        | some r => if r = "" then trimmed else r

/-- `sanitizePhone`: trim and strip everything but digits, whitespace,
hyphens, parentheses and plus signs. -/
def sanitizePhone (phone : Option String) : String :=
  match phone with
  | none => ""
  | some s =>
    if s = "" then ""
    else ⟨(jsTrim s).data.filter isPhoneChar⟩

/-- `sanitizeInteger` (issue #47): `0` for `null`/`undefined`/`""`, a kept
number as-is, a string through `Number.parseInt`, `0` on `NaN` or outside
`[MIN_POSITIVE_INTEGER, MAX_INTEGER]`. -/
def sanitizeInteger (value : IntInput) : ℚ :=
  match value with
  | .absent => 0
  | .str s =>
    if s = "" then 0
    else
      match parseIntJS s with
      | none => 0
      | some n =>
        if (n : ℚ) < 1 ∨ (2147483647 : ℚ) < (n : ℚ) then 0 else (n : ℚ)
  | .num q =>
    if q < 1 ∨ (2147483647 : ℚ) < q then 0 else q

/-- `sanitizeDate`: trim, keep only if the `MM/DD/YYYY`-family regex matches
(no calendar check at this layer). -/
def sanitizeDate (dateStr : Option String) : String :=
  match dateStr with
  | none => ""
  | some s =>
    if s = "" then ""
    else
      let trimmed := jsTrim s
      if dateRegexTest trimmed = false then "" else trimmed

end InputSanitizer

structure CreateContactDto where
  contact_id : IntInput
  first_name : Option String
  last_name : Option String
  program : Option String
  email_address : Option String
  phone : Option String
  contact_created_date : Option String
  law_firm_id : IntInput
  law_firm_name : Option String
deriving DecidableEq

structure SanitizedContactData where
  contact_id : ℚ
  first_name : String
  last_name : String
  program : String
  email_address : String
  phone : String
  contact_created_date : String
  law_firm_id : ℚ
  law_firm_name : String
deriving DecidableEq

/-- `InputSanitizer.sanitizeContactData` (issues #38–47). -/
def sanitizeContactData (E : EmailValidator) (data : CreateContactDto) :
    SanitizedContactData where
  contact_id := InputSanitizer.sanitizeInteger data.contact_id
  first_name := InputSanitizer.sanitizeString data.first_name
  last_name := InputSanitizer.sanitizeString data.last_name
  program := InputSanitizer.sanitizeString data.program
  email_address := InputSanitizer.sanitizeEmail E data.email_address
  phone := InputSanitizer.sanitizePhone data.phone
  contact_created_date := InputSanitizer.sanitizeDate data.contact_created_date
  law_firm_id := InputSanitizer.sanitizeInteger data.law_firm_id
  law_firm_name := InputSanitizer.sanitizeString data.law_firm_name

/-- `utils/validation.js` `isPositiveInteger` (number-typed variant used on
sanitized values): `typeof value === 'number'` holds by typing,
`Number.isInteger(value) && value > 0` is denominator 1 and positivity. -/
def isPositiveInteger (value : ℚ) : Bool :=
  value.den == 1 && decide (0 < value)

/-- The string variant of `isPositiveInteger` (issues #56, #57, #59), used by
the contacts controller on `req.params.id`:
`!Number.isNaN(num) && num > 0 && String(num) === value`. -/
def isPositiveIntegerStr (value : String) : Bool :=
  match parseIntJS value with
  | none => false
  | some n => decide (0 < n) && (toString n == value)

/-- `ERROR_MESSAGES.INVALID_CONTACT_ID`. -/
def INVALID_CONTACT_ID : String := "Contact ID must be a positive integer"

/-- `ERROR_MESSAGES.INVALID_DATE_FORMAT`. -/
def INVALID_DATE_FORMAT : String := "Contact Created Date must be in MM/DD/YYYY format"

/-- The required-field messages pushed by `validateContactData`, in source
order (a field is "missing" when its sanitized value is falsy / blank). -/
def requiredFieldErrors (s : SanitizedContactData) : List String :=
  (if s.contact_id == 0 then ["Contact ID is required and cannot be empty"] else []) ++
  (if s.first_name = "" ∨ jsTrim s.first_name = "" then ["First Name is required"] else []) ++
  (if s.last_name = "" ∨ jsTrim s.last_name = "" then ["Last Name is required"] else []) ++
  (if s.email_address = "" ∨ jsTrim s.email_address = "" then ["Email Address is required"] else []) ++
  (if s.contact_created_date = "" ∨ jsTrim s.contact_created_date = "" then ["Contact Created Date is required"] else []) ++
  (if s.law_firm_id == 0 then ["Law Firm ID is required"] else []) ++
  (if s.law_firm_name = "" ∨ jsTrim s.law_firm_name = "" then ["Law Firm Name is required"] else [])

/-- The format-check messages pushed by `validateContactData` once every
required field is present, in source order. -/
def formatFieldErrors (s : SanitizedContactData) : List String :=
  (if isPositiveInteger s.contact_id = false then [INVALID_CONTACT_ID] else []) ++
  (if isPositiveInteger s.law_firm_id = false then ["Law Firm ID must be a positive integer"] else []) ++
  (if isValidDateFormat s.contact_created_date = false then [INVALID_DATE_FORMAT] else [])

structure ContactValidationResult where
  isValid : Bool
  errors : List String
  sanitizedData : SanitizedContactData
deriving DecidableEq

/-- `utils/contactValidator.ts` `validateContactData`: sanitize, check the
required fields (returning early if any is missing), then run the three
format checks and accumulate their errors. -/
def validateContactData (E : EmailValidator) (data : CreateContactDto) :
    ContactValidationResult :=
  let sanitizedData := sanitizeContactData E data
  let errors := requiredFieldErrors sanitizedData
  if 0 < errors.length then
    { isValid := false, errors := errors, sanitizedData := sanitizedData }
  else
    let errors2 := formatFieldErrors sanitizedData
    if 0 < errors2.length then
      { isValid := false, errors := errors2, sanitizedData := sanitizedData }
    else
      { isValid := true, errors := [], sanitizedData := sanitizedData }

lemma mem_ite_singleton {c : Prop} [Decidable c] {m x : String}
    (h : x ∈ (if c then [m] else [])) : x = m := by
  split at h
  · simpa using h
  · simp at h

lemma requiredFieldErrors_all {s : SanitizedContactData} {x : String}
    (hx : x ∈ requiredFieldErrors s) :
    x = "Contact ID is required and cannot be empty" ∨
    x = "First Name is required" ∨ x = "Last Name is required" ∨
    x = "Email Address is required" ∨ x = "Contact Created Date is required" ∨
    x = "Law Firm ID is required" ∨ x = "Law Firm Name is required" := by
  unfold requiredFieldErrors at hx
  simp only [List.mem_append] at hx
  rcases hx with ((((((h | h) | h) | h) | h) | h) | h)
  · exact Or.inl (mem_ite_singleton h)
  · exact Or.inr (Or.inl (mem_ite_singleton h))
  · exact Or.inr (Or.inr (Or.inl (mem_ite_singleton h)))
  · exact Or.inr (Or.inr (Or.inr (Or.inl (mem_ite_singleton h))))
  · exact Or.inr (Or.inr (Or.inr (Or.inr (Or.inl (mem_ite_singleton h)))))
  · exact Or.inr (Or.inr (Or.inr (Or.inr (Or.inr (Or.inl (mem_ite_singleton h))))))
  · exact Or.inr (Or.inr (Or.inr (Or.inr (Or.inr (Or.inr (mem_ite_singleton h))))))

lemma formatFieldErrors_spec (s : SanitizedContactData) :
    (INVALID_CONTACT_ID ∈ formatFieldErrors s ↔
      isPositiveInteger s.contact_id = false) ∧
    ("Law Firm ID must be a positive integer" ∈ formatFieldErrors s ↔
      isPositiveInteger s.law_firm_id = false) ∧
    (INVALID_DATE_FORMAT ∈ formatFieldErrors s ↔
      isValidDateFormat s.contact_created_date = false) := by
  unfold formatFieldErrors
  by_cases hA : isPositiveInteger s.contact_id = false <;>
    by_cases hB : isPositiveInteger s.law_firm_id = false <;>
      by_cases hC : isValidDateFormat s.contact_created_date = false <;>
        simp [hA, hB, hC, INVALID_CONTACT_ID, INVALID_DATE_FORMAT]

/-- **C8**.  `validateContactData` stops at the required-field gate: if any
required field is missing the result carries exactly the per-field
missing messages and none of the three format-error messages; once every
required field is present, each format message appears iff its check fails —
errors accumulate, and a single record (non-integral `contact_id` `5/2`
together with the impossible date `2/30/2024`) reports the invalid
`contact_id` and the invalid date simultaneously. -/
theorem c8_validate_contact_gate :
    (∀ (E : EmailValidator) (data : CreateContactDto),
      (requiredFieldErrors (sanitizeContactData E data) ≠ [] →
        (validateContactData E data).isValid = false ∧
        (validateContactData E data).errors =
          requiredFieldErrors (sanitizeContactData E data) ∧
        INVALID_CONTACT_ID ∉ (validateContactData E data).errors ∧
        "Law Firm ID must be a positive integer" ∉ (validateContactData E data).errors ∧
        INVALID_DATE_FORMAT ∉ (validateContactData E data).errors) ∧
      (requiredFieldErrors (sanitizeContactData E data) = [] →
        (INVALID_CONTACT_ID ∈ (validateContactData E data).errors ↔
          isPositiveInteger (sanitizeContactData E data).contact_id = false) ∧
        ("Law Firm ID must be a positive integer" ∈ (validateContactData E data).errors ↔
          isPositiveInteger (sanitizeContactData E data).law_firm_id = false) ∧
        (INVALID_DATE_FORMAT ∈ (validateContactData E data).errors ↔
          isValidDateFormat (sanitizeContactData E data).contact_created_date = false))) ∧
    (INVALID_CONTACT_ID ∈ (validateContactData acceptAllEmails
        ⟨.num (mkRat 5 2), some "A", some "B", none, some "a@b.com", none,
          some "2/30/2024", .num 3, some "F"⟩).errors ∧
      INVALID_DATE_FORMAT ∈ (validateContactData acceptAllEmails
        ⟨.num (mkRat 5 2), some "A", some "B", none, some "a@b.com", none,
          some "2/30/2024", .num 3, some "F"⟩).errors) := by
  constructor
  · intro E data
    constructor
    · intro hne
      have hlen : 0 < (requiredFieldErrors (sanitizeContactData E data)).length := by
        cases hh : requiredFieldErrors (sanitizeContactData E data) with
        | nil => exact absurd hh hne
        | cons a l => simp
      simp only [validateContactData]
      rw [if_pos hlen]
      refine ⟨rfl, rfl, ?_, ?_, ?_⟩ <;>
        · intro hmem
          rcases requiredFieldErrors_all hmem with h | h | h | h | h | h | h <;>
            exact absurd h (by decide)
    · intro heq
      have hlen : ¬ 0 < (requiredFieldErrors (sanitizeContactData E data)).length := by
        rw [heq]
        simp
      simp only [validateContactData]
      rw [if_neg hlen]
      by_cases h2 : 0 < (formatFieldErrors (sanitizeContactData E data)).length
      · rw [if_pos h2]
        exact formatFieldErrors_spec (sanitizeContactData E data)
      · rw [if_neg h2]
        have hnil : formatFieldErrors (sanitizeContactData E data) = [] := by
          cases hh : formatFieldErrors (sanitizeContactData E data) with
          | nil => rfl
          | cons a l => rw [hh] at h2; simp at h2
        obtain ⟨t1, t2, t3⟩ := formatFieldErrors_spec (sanitizeContactData E data)
        rw [hnil] at t1 t2 t3
        simp only [List.not_mem_nil, false_iff] at t1 t2 t3
        refine ⟨?_, ?_, ?_⟩ <;> constructor <;> intro hx
        · simp at hx
        · exact absurd hx t1
        · simp at hx
        · exact absurd hx t2
        · simp at hx
        · exact absurd hx t3
  · constructor
    · decide
    · decide

/-- **C8** witness: a record with a missing first name gets only the
missing-field message and no format message. -/
theorem c8_validate_contact_gate_witness :
    requiredFieldErrors (sanitizeContactData acceptAllEmails
      ⟨.num 3, none, some "B", none, some "a@b.com", none,
        some "1/1/2024", .num 4, some "F"⟩) ≠ [] ∧
    ((validateContactData acceptAllEmails
        ⟨.num 3, none, some "B", none, some "a@b.com", none,
          some "1/1/2024", .num 4, some "F"⟩).isValid = false ∧
      (validateContactData acceptAllEmails
        ⟨.num 3, none, some "B", none, some "a@b.com", none,
          some "1/1/2024", .num 4, some "F"⟩).errors =
        requiredFieldErrors (sanitizeContactData acceptAllEmails
          ⟨.num 3, none, some "B", none, some "a@b.com", none,
            some "1/1/2024", .num 4, some "F"⟩) ∧
      INVALID_CONTACT_ID ∉ (validateContactData acceptAllEmails
        ⟨.num 3, none, some "B", none, some "a@b.com", none,
          some "1/1/2024", .num 4, some "F"⟩).errors ∧
      "Law Firm ID must be a positive integer" ∉ (validateContactData acceptAllEmails
        ⟨.num 3, none, some "B", none, some "a@b.com", none,
          some "1/1/2024", .num 4, some "F"⟩).errors ∧
      INVALID_DATE_FORMAT ∉ (validateContactData acceptAllEmails
        ⟨.num 3, none, some "B", none, some "a@b.com", none,
          some "1/1/2024", .num 4, some "F"⟩).errors) :=
  ⟨by decide,
    (c8_validate_contact_gate.1 acceptAllEmails
      ⟨.num 3, none, some "B", none, some "a@b.com", none,
        some "1/1/2024", .num 4, some "F"⟩).1 (by decide)⟩

/-!
## `controllers/contacts.ts` — `updateContact` (PUT /api/contacts/:id)

The handler validates the id parameter, loads the existing row, overwrites
the client-supplied `contact_created_date` with the stored value, validates,
and then — inside a transaction — re-checks existence, checks for a key
collision when the id changes, deletes the old row and saves the new entity.
-/

inductive UpdateOutcome where
  | badRequest (message : String)
  | notFound
  | conflict
  | success (oldId newId : Int)
deriving DecidableEq

/-- `repository.findOne({ where: { contact_id: id } })`. -/
def findOne (db : List Contact) (id : Int) : Option Contact :=
  db.find? (fun c => c.contact_id == id)

/-- `save(entity)` with a fully-populated entity: overwrite the row with the
same primary key, or append when the key is new. -/
def jsSave (db : List Contact) (c : Contact) : List Contact :=
  if db.any (fun x => x.contact_id == c.contact_id) then
    db.map (fun x => if x.contact_id == c.contact_id then c else x)
  else db ++ [c]

/-- `delete(Contact, { contact_id: id })`. -/
def jsDeleteById (db : List Contact) (id : Int) : List Contact :=
  db.filter (fun x => !(x.contact_id == id))

/-- The entity built from `validation.sanitizedData` (the save path is only
reached after `isPositiveInteger` passed, so the rational ids have
denominator 1 and `.num` is their integer value). -/
def mkContact (cd : SanitizedContactData) : Contact where
  contact_id := cd.contact_id.num
  first_name := cd.first_name
  last_name := cd.last_name
  program := cd.program
  email_address := cd.email_address
  phone := cd.phone
  contact_created_date := cd.contact_created_date
  law_firm_id := cd.law_firm_id.num
  law_firm_name := cd.law_firm_name

/-- `ContactsController.updateContact`, returning the visible database state
and the HTTP outcome. -/
def updateContact (E : EmailValidator) (db : List Contact) (idParam : String)
    (dto : CreateContactDto) : List Contact × UpdateOutcome :=
  if isPositiveIntegerStr idParam = false then
    (db, .badRequest INVALID_CONTACT_ID)
  else
    let contactId : Int := (parseIntJS idParam).getD 0
    match findOne db contactId with
    | none => (db, .notFound)
    | some existingContactForDate =>
      let v := validateContactData E
        { dto with contact_created_date := some existingContactForDate.contact_created_date }
      if v.isValid = false then
        (db, .badRequest (String.intercalate ", " v.errors))
      else
        let contactData := v.sanitizedData
        let newId : Int := contactData.contact_id.num
        match findOne db contactId with
        | none => (db, .notFound)
        | some _ =>
          if contactData.contact_id ≠ (contactId : ℚ) then
            match findOne db newId with
            | some _ => (db, .conflict)
            | none =>
              (jsSave (jsDeleteById db contactId) (mkContact contactData),
                .success contactId newId)
          else
            (jsSave db (mkContact contactData), .success contactId newId)

lemma sanitizeDate_ne_empty {x : Option String}
    (h : InputSanitizer.sanitizeDate x ≠ "") :
    ∃ s, x = some s ∧ InputSanitizer.sanitizeDate x = jsTrim s := by
  cases x with
  | none => simp [InputSanitizer.sanitizeDate] at h
  | some s =>
    refine ⟨s, rfl, ?_⟩
    simp only [InputSanitizer.sanitizeDate] at h ⊢
    by_cases h1 : s = ""
    · rw [if_pos h1] at h
      exact absurd rfl h
    · rw [if_neg h1] at h ⊢
      by_cases h2 : dateRegexTest (jsTrim s) = false
      · rw [if_pos h2] at h
        exact absurd rfl h
      · rw [if_neg h2]

lemma validateContactData_valid_date {E : EmailValidator} {data : CreateContactDto}
    (h : (validateContactData E data).isValid = true) :
    (validateContactData E data).sanitizedData.contact_created_date =
      InputSanitizer.sanitizeDate data.contact_created_date ∧
    InputSanitizer.sanitizeDate data.contact_created_date ≠ "" := by
  simp only [validateContactData] at h ⊢
  by_cases h1 : 0 < (requiredFieldErrors (sanitizeContactData E data)).length
  · rw [if_pos h1] at h
    simp at h
  · rw [if_neg h1] at h ⊢
    have hreq : requiredFieldErrors (sanitizeContactData E data) = [] := by
      cases hh : requiredFieldErrors (sanitizeContactData E data) with
      | nil => rfl
      | cons a l => rw [hh] at h1; simp at h1
    have hdate : ¬((sanitizeContactData E data).contact_created_date = "" ∨
        jsTrim ((sanitizeContactData E data).contact_created_date) = "") := by
      intro hcond
      have hmem : "Contact Created Date is required" ∈
          requiredFieldErrors (sanitizeContactData E data) := by
        unfold requiredFieldErrors
        simp only [List.mem_append]
        refine Or.inl (Or.inl (Or.inr ?_))
        rw [if_pos hcond]
        simp
      rw [hreq] at hmem
      simp at hmem
    constructor
    · split <;> rfl
    · intro hc
      exact hdate (Or.inl hc)

lemma findOne_some_any {db : List Contact} {n : Int} {e : Contact}
    (h : findOne db n = some e) :
    db.any (fun x => x.contact_id == n) = true := by
  unfold findOne at h
  rw [List.any_eq_true]
  have hp := List.find?_some h
  have hm := List.mem_of_find?_eq_some h
  exact ⟨e, hm, hp⟩

lemma findOne_none_any {db : List Contact} {n : Int}
    (h : findOne db n = none) :
    db.any (fun x => x.contact_id == n) = false := by
  unfold findOne at h
  rw [List.find?_eq_none] at h
  rw [Bool.eq_false_iff]
  intro hany
  rw [List.any_eq_true] at hany
  obtain ⟨x, hx, hpx⟩ := hany
  exact absurd hpx (h x hx)

lemma findOne_filter_none {db : List Contact} {n : Int}
    (h : findOne db n = none) (p : Contact → Bool) :
    findOne (db.filter p) n = none := by
  unfold findOne at h ⊢
  rw [List.find?_eq_none] at h ⊢
  intro x hx
  exact h x (List.mem_of_mem_filter hx)

lemma findOne_append_singleton {db : List Contact} {c : Contact} {n : Int}
    (h : findOne db n = none) (hc : c.contact_id = n) :
    findOne (db ++ [c]) n = some c := by
  unfold findOne at h ⊢
  induction db with
  | nil => simp [List.find?, hc]
  | cons a l ih =>
    rw [List.find?_eq_none] at h
    have ha : (a.contact_id == n) = false := by
      rw [Bool.eq_false_iff]
      exact h a (by simp)
    simp only [List.cons_append, List.find?]
    rw [ha]
    exact ih (by rw [List.find?_eq_none]; intro x hx; exact h x (by simp [hx]))

lemma findOne_map_replace {db : List Contact} {n : Int} {c' : Contact}
    (hex : db.any (fun x => x.contact_id == n) = true) (hc : c'.contact_id = n) :
    findOne (db.map (fun x => if x.contact_id == n then c' else x)) n = some c' := by
  induction db with
  | nil => simp at hex
  | cons a l ih =>
    by_cases ha : (a.contact_id == n) = true
    · unfold findOne
      simp only [List.map_cons]
      rw [if_pos ha]
      simp [List.find?, hc]
    · unfold findOne
      simp only [List.map_cons]
      rw [if_neg ha]
      simp only [List.find?]
      rw [Bool.eq_false_iff.mpr ha]
      have hex' : l.any (fun x => x.contact_id == n) = true := by
        rw [List.any_eq_true] at hex ⊢
        obtain ⟨x, hx, hpx⟩ := hex
        rcases List.mem_cons.mp hx with hxa | hxl
        · exact absurd (hxa ▸ hpx) ha
        · exact ⟨x, hxl, hpx⟩
      exact ih hex'

/-- **C10** (amended).  `updateContact` ignores the client-supplied
`contact_created_date` entirely (the outcome and state are unchanged under
any value of that field), and on every successful update the saved row's
`contact_created_date` is the previously stored row's value as trimmed by
`sanitizeDate` — equal on the nose exactly when the stored value carries no
surrounding whitespace, which holds for every value the API itself stores
but not for every reachable stored value. -/
theorem c10_update_preserves_created_date :
    (∀ (E : EmailValidator) (db : List Contact) (idParam : String)
      (dto : CreateContactDto) (v : Option String),
      updateContact E db idParam { dto with contact_created_date := v } =
        updateContact E db idParam dto) ∧
    (∀ (E : EmailValidator) (db : List Contact) (idParam : String)
      (dto : CreateContactDto) (db' : List Contact) (o n : Int),
      updateContact E db idParam dto = (db', .success o n) →
      ∃ e c', findOne db o = some e ∧ findOne db' n = some c' ∧
        c'.contact_created_date = jsTrim e.contact_created_date ∧
        (jsTrim e.contact_created_date = e.contact_created_date →
          c'.contact_created_date = e.contact_created_date)) := by
  constructor
  · intro E db idParam dto v
    cases dto
    rfl
  · intro E db idParam dto db' o n h
    simp only [updateContact] at h
    by_cases hid : isPositiveIntegerStr idParam = false
    · rw [if_pos hid] at h
      simp at h
    · rw [if_neg hid] at h
      cases hfind : findOne db ((parseIntJS idParam).getD 0) with
      | none => rw [hfind] at h; simp at h
      | some e =>
        rw [hfind] at h
        simp only [] at h
        set dto2 : CreateContactDto :=
          { dto with contact_created_date := some e.contact_created_date } with hdto2
        by_cases hval : (validateContactData E dto2).isValid = false
        · rw [if_pos hval] at h
          simp at h
        · rw [if_neg hval] at h
          have hvalid : (validateContactData E dto2).isValid = true := by
            cases hb : (validateContactData E dto2).isValid with
            | false => exact absurd hb hval
            | true => rfl
          obtain ⟨hdate_eq, hdate_ne⟩ := validateContactData_valid_date hvalid
          have hdto2date : dto2.contact_created_date = some e.contact_created_date := by
            rw [hdto2]
          rw [hdto2date] at hdate_eq hdate_ne
          obtain ⟨s0, hs0, hsan⟩ := sanitizeDate_ne_empty hdate_ne
          have hs0e : s0 = e.contact_created_date := (Option.some.inj hs0).symm
          have hcdate : (validateContactData E dto2).sanitizedData.contact_created_date =
              jsTrim e.contact_created_date := by
            rw [hdate_eq, hsan, hs0e]
          by_cases hch : (validateContactData E dto2).sanitizedData.contact_id ≠
              (((parseIntJS idParam).getD 0 : Int) : ℚ)
          · rw [if_pos hch] at h
            cases hconf : findOne db
                ((validateContactData E dto2).sanitizedData.contact_id.num) with
            | some cc => rw [hconf] at h; simp at h
            | none =>
              rw [hconf] at h
              simp only [Prod.mk.injEq, UpdateOutcome.success.injEq] at h
              obtain ⟨hdb, ho, hn⟩ := h
              set c' := mkContact (validateContactData E dto2).sanitizedData with hcdef
              have hcid : c'.contact_id =
                  (validateContactData E dto2).sanitizedData.contact_id.num := rfl
              refine ⟨e, c', ?_, ?_, hcdate, fun htr => hcdate.trans htr⟩
              · rw [← ho]
                exact hfind
              · rw [← hdb, ← hn]
                have hdel : findOne (jsDeleteById db ((parseIntJS idParam).getD 0))
                    ((validateContactData E dto2).sanitizedData.contact_id.num) = none :=
                  findOne_filter_none hconf _
                rw [← hcid] at hdel ⊢
                have hsave : jsSave (jsDeleteById db ((parseIntJS idParam).getD 0)) c' =
                    jsDeleteById db ((parseIntJS idParam).getD 0) ++ [c'] := by
                  unfold jsSave
                  rw [if_neg (by rw [findOne_none_any hdel]; simp)]
                rw [hsave]
                exact findOne_append_singleton hdel rfl
          · rw [if_neg hch] at h
            push_neg at hch
            simp only [Prod.mk.injEq, UpdateOutcome.success.injEq] at h
            obtain ⟨hdb, ho, hn⟩ := h
            have hnum : (validateContactData E dto2).sanitizedData.contact_id.num =
                (parseIntJS idParam).getD 0 := by
              rw [hch]
              exact Rat.num_intCast _
            set c' := mkContact (validateContactData E dto2).sanitizedData with hcdef
            have hcid : c'.contact_id =
                (validateContactData E dto2).sanitizedData.contact_id.num := rfl
            refine ⟨e, c', ?_, ?_, hcdate, fun htr => hcdate.trans htr⟩
            · rw [← ho]
              exact hfind
            · rw [← hdb, ← hn]
              rw [← hcid] at hnum ⊢
              have hex : db.any (fun x => x.contact_id == c'.contact_id) = true := by
                rw [hnum]
                exact findOne_some_any hfind
              have hsave : jsSave db c' =
                  db.map (fun x => if x.contact_id == c'.contact_id then c' else x) := by
                unfold jsSave
                rw [if_pos hex]
              rw [hsave]
              exact findOne_map_replace hex rfl

/-- **C10** witness: a successful update of contact 7 whose request body
carries the date `9/9/2099`; the stored date `1/1/2024` is preserved. -/
theorem c10_update_preserves_created_date_witness :
    updateContact acceptAllEmails
        [⟨7, "A", "B", "", "a@b.com", "", "1/1/2024", 3, "F"⟩] "7"
        ⟨.num 7, some "A", some "B", none, some "a@b.com", none,
          some "9/9/2099", .num 3, some "F"⟩ =
      ([⟨7, "A", "B", "", "a@b.com", "", "1/1/2024", 3, "F"⟩], .success 7 7) ∧
    (∃ e c', findOne [⟨7, "A", "B", "", "a@b.com", "", "1/1/2024", 3, "F"⟩] 7 = some e ∧
      findOne [⟨7, "A", "B", "", "a@b.com", "", "1/1/2024", 3, "F"⟩] 7 = some c' ∧
      c'.contact_created_date = jsTrim e.contact_created_date ∧
      (jsTrim e.contact_created_date = e.contact_created_date →
        c'.contact_created_date = e.contact_created_date)) :=
  ⟨by decide,
    c10_update_preserves_created_date.2 acceptAllEmails
      [⟨7, "A", "B", "", "a@b.com", "", "1/1/2024", 3, "F"⟩] "7"
      ⟨.num 7, some "A", some "B", none, some "a@b.com", none,
        some "9/9/2099", .num 3, some "F"⟩
      [⟨7, "A", "B", "", "a@b.com", "", "1/1/2024", 3, "F"⟩] 7 7 (by decide)⟩

/-- **C10** counterexample to unconditional preservation: a stored row whose
`contact_created_date` carries surrounding whitespace (the CSV importer
stores date cells unvalidated, so such rows are reachable) is successfully
updated, and the date stored afterwards is the trimmed value — the stored
`contact_created_date` changed. -/
theorem c10_counterexample_whitespace_date :
    (updateContact acceptAllEmails
        [⟨7, "A", "B", "", "a@b.com", "", " 1/1/2024 ", 3, "F"⟩] "7"
        ⟨.num 7, some "A", some "B", none, some "a@b.com", none,
          some " 1/1/2024 ", .num 3, some "F"⟩).2 = .success 7 7 ∧
    (updateContact acceptAllEmails
        [⟨7, "A", "B", "", "a@b.com", "", " 1/1/2024 ", 3, "F"⟩] "7"
        ⟨.num 7, some "A", some "B", none, some "a@b.com", none,
          some " 1/1/2024 ", .num 3, some "F"⟩).1.map
      (fun c => c.contact_created_date) = ["1/1/2024"] ∧
    (" 1/1/2024 " : String) ≠ "1/1/2024" := by
  exact ⟨by decide, by decide, by decide⟩
